import Mathlib

/-!
Verification development for the pdfparser repository (package `pdf`).

The Go source is shallowly embedded: the buffered byte reader becomes a
`List Nat` of byte values (each 0..255) consumed from the front, so a
"seek back to a saved offset" becomes reusing the suffix that was saved,
and `UnreadByte` becomes keeping the byte at the head of the remaining
list.  Machine integers become `Int`/`Nat` (no overflow is relevant to the
properties proved here) and Go `float64` arithmetic on parsed numbers is
modelled with exact rational arithmetic `Rat`, performing the same
sequence of operations the source performs; every concrete value appearing
in a theorem below is small enough that the float computation is exact or
the divergence proved is far larger than any rounding error.

External collaborators (crypto/md5, crypto/rc4, AES-CBC block decryption,
stream decode filters) are parameters of the embedded functions, exactly
as the spec treats them: the source calls them through fixed library
interfaces and none of the verified properties depends on their internals.
-/

namespace PdfParser

/-- Byte classes from pdf.go / parser.go: `whitespace = "\x00\t\n\f\r "`. -/
def isWhitespaceByte (b : Nat) : Bool :=
  b = 0 || b = 9 || b = 10 || b = 12 || b = 13 || b = 32

/-- Byte classes from pdf.go / parser.go: `delimiters = "()<>[]/%"`. -/
def isDelimiterByte (b : Nat) : Bool :=
  b = 40 || b = 41 || b = 60 || b = 62 || b = 91 || b = 93 || b = 47 || b = 37

/-- Decimal digit byte. -/
def isDigitByte (b : Nat) : Bool := 48 ≤ b && b ≤ 57

/-- Hex digit byte (`IsHex` helper of the source, used by name and hex-string
escapes; modelled as the standard 0-9/a-f/A-F classes the `#HH` escapes of
the spec require). -/
def isHexByte (b : Nat) : Bool :=
  (48 ≤ b && b ≤ 57) || (97 ≤ b && b ≤ 102) || (65 ≤ b && b ≤ 70)

/-- Value of a hex digit byte. -/
def hexVal (b : Nat) : Nat :=
  if 48 ≤ b && b ≤ 57 then b - 48
  else if 97 ≤ b && b ≤ 102 then b - 87
  else if 65 ≤ b && b ≤ 70 then b - 55
  else 0

/-- Bytes of an ASCII string literal, for readable concrete inputs. -/
def strBytes (s : String) : List Nat := s.data.map Char.toNat

/-- Parser.consumeComment (parser.go): consume bytes up to and including the
first `\n`, or a `\r` optionally followed by `\n`; at end of input, stop. -/
def consumeComment : List Nat → List Nat
  | [] => []
  | b :: bs =>
    if b = 10 then bs
    else if b = 13 then
      match bs with
      | 10 :: cs => cs
      | _ => bs
    else consumeComment bs

theorem consumeComment_length_le (xs : List Nat) :
    (consumeComment xs).length ≤ xs.length := by
  induction xs with
  | nil => simp [consumeComment]
  | cons b bs ih =>
    simp only [consumeComment]
    split
    · simp
    · split
      · split
        · simp; omega
        · simp
      · exact le_trans ih (by simp)

/-- Parser.consumeWhitespace (parser.go): skip whitespace bytes and comments
(`%` up to end of line) in any mix, stopping at the first byte that is
neither. -/
def parserConsumeWhitespace : List Nat → List Nat
  | [] => []
  | b :: bs =>
    if b = 37 then parserConsumeWhitespace (consumeComment bs)
    else if isWhitespaceByte b then parserConsumeWhitespace bs
    else b :: bs
termination_by xs => xs.length
decreasing_by
  · exact Nat.lt_succ_of_le (consumeComment_length_le bs)
  · simp

/-- bufio ReadBytes behaviour used by Pdf.ConsumeWhitespace (pdf.go): consume
bytes up to and including the first `\n`; if none remains, consume all. -/
def dropThroughLF : List Nat → List Nat
  | [] => []
  | b :: bs => if b = 10 then bs else dropThroughLF bs

theorem dropThroughLF_length_le (xs : List Nat) :
    (dropThroughLF xs).length ≤ xs.length := by
  induction xs with
  | nil => simp [dropThroughLF]
  | cons b bs ih =>
    simp only [dropThroughLF]
    split
    · simp
    · exact le_trans ih (by simp)

/-- Pdf.ConsumeWhitespace (pdf.go): skip whitespace and comments, where a
comment is consumed with `ReadBytes('\n')` - it ends only at a line feed. -/
def pdfConsumeWhitespace : List Nat → List Nat
  | [] => []
  | b :: bs =>
    if b = 37 then pdfConsumeWhitespace (dropThroughLF bs)
    else if isWhitespaceByte b then pdfConsumeWhitespace bs
    else b :: bs
termination_by xs => xs.length
decreasing_by
  · exact Nat.lt_succ_of_le (dropThroughLF_length_le bs)
  · simp

/-- bufio ReadBytes behaviour used by Tokenizer.SkipWhitespace: consume bytes
up to and including the first `%`; `none` if end of input is reached first
(ReadBytes returns an error in that case). -/
def dropThroughPct : List Nat → Option (List Nat)
  | [] => none
  | b :: bs => if b = 37 then some bs else dropThroughPct bs

theorem dropThroughPct_length_le (xs r : List Nat)
    (h : dropThroughPct xs = some r) : r.length ≤ xs.length := by
  induction xs with
  | nil => simp [dropThroughPct] at h
  | cons b bs ih =>
    simp only [dropThroughPct] at h
    split at h
    · cases h; simp
    · exact le_trans (ih h) (by simp)

/-- Tokenizer.SkipWhitespace (unnamed part_000): skip whitespace; on `%` the
source runs `ReadBytes('%')`, consuming the comment through the NEXT `%`
byte; the first byte that is neither is read and returned together with
the rest of the input; `none` models the error returns at end of input. -/
def tokenizerSkipWhitespace : List Nat → Option (Nat × List Nat)
  | [] => none
  | b :: bs =>
    if isWhitespaceByte b then tokenizerSkipWhitespace bs
    else if b = 37 then
      match h : dropThroughPct bs with
      | none => none
      | some rest => tokenizerSkipWhitespace rest
    else some (b, bs)
termination_by xs => xs.length
decreasing_by
  · simp
  · exact Nat.lt_succ_of_le (dropThroughPct_length_le bs rest h)

/-- Modelled from the spec (claim C8 wording): consume bytes of a comment up
to its end, where the comment "ends at the first `\n`, `\r`, or `\r\n`";
the terminator is consumed with the comment. -/
def specCommentEnd : List Nat → List Nat
  | [] => []
  | b :: bs =>
    if b = 10 then bs
    else if b = 13 then
      match bs with
      | 10 :: cs => cs
      | _ => bs
    else specCommentEnd bs

theorem specCommentEnd_length_le (xs : List Nat) :
    (specCommentEnd xs).length ≤ xs.length := by
  induction xs with
  | nil => simp [specCommentEnd]
  | cons b bs ih =>
    simp only [specCommentEnd]
    split
    · simp
    · split
      · split
        · simp; omega
        · simp
      · exact le_trans ih (by simp)

/-- Modelled from the spec (claim C8 wording): skip any mix of whitespace
bytes and comments, each comment running from `%` to the first `\n`, `\r`,
or `\r\n`; the result is positioned at the first byte that is neither
whitespace nor inside a comment. -/
def specSkipWhitespace : List Nat → List Nat
  | [] => []
  | b :: bs =>
    if isWhitespaceByte b then specSkipWhitespace bs
    else if b = 37 then specSkipWhitespace (specCommentEnd bs)
    else b :: bs
termination_by xs => xs.length
decreasing_by
  · simp
  · exact Nat.lt_succ_of_le (specCommentEnd_length_le bs)

/-- Error values of the parser layer: `ErrorRead`, `NewError(msg)` (the
`Expected ...` family), the `EndOfArray` / `EndOfDictionary` sentinels, and
a marker for recursion points where the Go source would loop forever (the
embedding is fuelled; see the array/dictionary loops). -/
inductive PErr where
  | read
  | expected (msg : String)
  | endOfArray
  | endOfDictionary
  | fuelOut
deriving DecidableEq, Repr

/-- Result of a primitive reader: the (possibly partial) value, the optional
error, and the remaining input, mirroring the Go pattern of returning a
value together with an error while mutating the reader. -/
structure PRes (α : Type) where
  val : α
  err : Option PErr
  rest : List Nat
deriving DecidableEq, Repr

/-- Keyword values; `NewKeyword` is not under src/.  Modelled from the spec:
keywords are "mapped to a fixed small set; unknown strings yield a sentinel
null keyword".  `null` is the sentinel and also the null object keyword. -/
inductive Keyword where
  | obj
  | endobj
  | stream
  | endstream
  | trailer
  | xref
  | n
  | f
  | R
  | null
  | litTrue
  | litFalse
deriving DecidableEq, Repr

/-- Modelled from the spec: map a raw keyword byte string to the fixed
keyword set, with the null keyword as the sentinel for unknown strings. -/
def NewKeyword (s : List Nat) : Keyword :=
  if s = strBytes "obj" then .obj
  else if s = strBytes "endobj" then .endobj
  else if s = strBytes "stream" then .stream
  else if s = strBytes "endstream" then .endstream
  else if s = strBytes "trailer" then .trailer
  else if s = strBytes "xref" then .xref
  else if s = strBytes "n" then .n
  else if s = strBytes "f" then .f
  else if s = strBytes "R" then .R
  else if s = strBytes "true" then .litTrue
  else if s = strBytes "false" then .litFalse
  else .null

/-- Span of keyword bytes for Parser.ReadKeyword: any byte that is neither
whitespace nor a delimiter continues the keyword. -/
def parserKeywordSpan : List Nat → List Nat × List Nat
  | [] => ([], [])
  | b :: bs =>
    if isWhitespaceByte b || isDelimiterByte b then ([], b :: bs)
    else
      let r := parserKeywordSpan bs
      (b :: r.1, r.2)

/-- Span of keyword bytes for Pdf.readKeyword: only `a`..`z` and the literal
`R` continue the keyword. -/
def pdfKeywordSpan : List Nat → List Nat × List Nat
  | [] => ([], [])
  | b :: bs =>
    if (b < 97 || 122 < b) && b ≠ 82 then ([], b :: bs)
    else
      let r := pdfKeywordSpan bs
      (b :: r.1, r.2)

/-- Parser.ReadKeyword (parser.go): consume whitespace, span the keyword
characters, interpret via NewKeyword.  It returns no error. -/
def parserReadKeyword (xs : List Nat) : Keyword × List Nat :=
  let ys := parserConsumeWhitespace xs
  let r := parserKeywordSpan ys
  (NewKeyword r.1, r.2)

/-- Pdf.readKeyword (pdf.go): same structure with the narrower character
class `[a-z]` plus `R`.  The Go version also returns NewKeyword's error;
the spec specifies the null sentinel for unknown strings, so the embedding
returns the keyword alone and callers compare against the expected one. -/
def pdfReadKeyword (xs : List Nat) : Keyword × List Nat :=
  let ys := pdfConsumeWhitespace xs
  let r := pdfKeywordSpan ys
  (NewKeyword r.1, r.2)

/-- Digit-accumulation loop shared by ReadInt64 of both variants:
`value = value*10 + (b - '0')`, stopping (and leaving the byte) at the
first non-digit. -/
def intDigitsLoop (acc : Int) : List Nat → Int × List Nat
  | [] => (acc, [])
  | b :: bs =>
    if isDigitByte b then intDigitsLoop (acc * 10 + (b - 48 : Nat)) bs
    else (acc, b :: bs)

/-- Core of ReadInt64 on input already past whitespace: the first byte must
be a digit, otherwise value 0 and the `Expected int` error with the byte
unread. -/
def readInt64Core : List Nat → PRes Int
  | [] => ⟨0, some (.expected "Expected int"), []⟩
  | b :: bs =>
    if isDigitByte b then
      let r := intDigitsLoop ((b - 48 : Nat) : Int) bs
      ⟨r.1, none, r.2⟩
    else ⟨0, some (.expected "Expected int"), b :: bs⟩

/-- Parser.ReadInt64 / Parser.ReadInt (parser.go). -/
def parserReadInt64 (xs : List Nat) : PRes Int :=
  readInt64Core (parserConsumeWhitespace xs)

/-- Pdf.readInt64 / Pdf.readInt (pdf.go). -/
def pdfReadInt64 (xs : List Nat) : PRes Int :=
  readInt64Core (pdfConsumeWhitespace xs)

/-- Integer-part loop of readNumber: accumulate digits into the float (here
exact rational) value, switch to the real part at a `.`, stop at anything
else (leaving the byte). -/
def numberIntLoop (acc : Rat) : List Nat → Rat × Bool × List Nat
  | [] => (acc, false, [])
  | b :: bs =>
    if isDigitByte b then numberIntLoop (acc * 10 + ((b - 48 : Nat) : Rat)) bs
    else if b = 46 then (acc, true, bs)
    else (acc, false, b :: bs)

/-- Real-part loop of readNumber, exactly as the source computes it: the
digit at (1-based) position i past the point contributes
`(b - '0') / (10 * i)` - the divisor the source uses is `10 * i`, not
`10 ^ i`. -/
def numberRealLoop (acc : Rat) (i : Nat) : List Nat → Rat × List Nat
  | [] => (acc, [])
  | b :: bs =>
    if isDigitByte b then
      numberRealLoop (acc + ((b - 48 : Nat) : Rat) / (10 * (i : Rat))) (i + 1) bs
    else (acc, b :: bs)

/-- Core of readNumber on input already past whitespace (identical in both
variants): optional sign, integer digits, optional `.` and fractional
digits. -/
def readNumberCore : List Nat → PRes Rat
  | [] => ⟨0, some .read, []⟩
  | b :: bs =>
    if b = 45 then
      let r := numberIntLoop 0 bs
      if r.2.1 then
        let s := numberRealLoop r.1 1 r.2.2
        ⟨-s.1, none, s.2⟩
      else ⟨-r.1, none, r.2.2⟩
    else if isDigitByte b then
      let r := numberIntLoop ((b - 48 : Nat) : Rat) bs
      if r.2.1 then
        let s := numberRealLoop r.1 1 r.2.2
        ⟨s.1, none, s.2⟩
      else ⟨r.1, none, r.2.2⟩
    else if b = 46 then
      let s := numberRealLoop 0 1 bs
      ⟨s.1, none, s.2⟩
    else if b = 43 then
      let r := numberIntLoop 0 bs
      if r.2.1 then
        let s := numberRealLoop r.1 1 r.2.2
        ⟨s.1, none, s.2⟩
      else ⟨r.1, none, r.2.2⟩
    else ⟨0, some (.expected "Expected number"), b :: bs⟩

/-- Parser.ReadNumber (parser.go). -/
def parserReadNumber (xs : List Nat) : PRes Rat :=
  readNumberCore (parserConsumeWhitespace xs)

/-- Pdf.readNumber (pdf.go). -/
def pdfReadNumber (xs : List Nat) : PRes Rat :=
  readNumberCore (pdfConsumeWhitespace xs)

/-- Go conversion int(float64): truncation toward zero, on the exact
rational model. -/
def goInt (q : Rat) : Int := Int.tdiv q.num (q.den : Int)

theorem parserConsumeWhitespace_le_aux :
    ∀ (n : Nat) (xs : List Nat), xs.length ≤ n →
      (parserConsumeWhitespace xs).length ≤ xs.length
  | _, [], _ => by simp [parserConsumeWhitespace]
  | 0, b :: bs, h => by simp at h
  | n + 1, b :: bs, h => by
    rw [parserConsumeWhitespace]
    by_cases h37 : b = 37
    · rw [if_pos h37]
      have h1 := consumeComment_length_le bs
      have h2 := parserConsumeWhitespace_le_aux n (consumeComment bs)
        (by simp at h; omega)
      simp
      omega
    · rw [if_neg h37]
      by_cases hws : isWhitespaceByte b = true
      · rw [if_pos hws]
        have h2 := parserConsumeWhitespace_le_aux n bs (by simp at h; omega)
        simp
        omega
      · rw [if_neg hws]

theorem parserConsumeWhitespace_length_le (xs : List Nat) :
    (parserConsumeWhitespace xs).length ≤ xs.length :=
  parserConsumeWhitespace_le_aux xs.length xs le_rfl

theorem pdfConsumeWhitespace_le_aux :
    ∀ (n : Nat) (xs : List Nat), xs.length ≤ n →
      (pdfConsumeWhitespace xs).length ≤ xs.length
  | _, [], _ => by simp [pdfConsumeWhitespace]
  | 0, b :: bs, h => by simp at h
  | n + 1, b :: bs, h => by
    rw [pdfConsumeWhitespace]
    by_cases h37 : b = 37
    · rw [if_pos h37]
      have h1 := dropThroughLF_length_le bs
      have h2 := pdfConsumeWhitespace_le_aux n (dropThroughLF bs)
        (by simp at h; omega)
      simp
      omega
    · rw [if_neg h37]
      by_cases hws : isWhitespaceByte b = true
      · rw [if_pos hws]
        have h2 := pdfConsumeWhitespace_le_aux n bs (by simp at h; omega)
        simp
        omega
      · rw [if_neg hws]

theorem pdfConsumeWhitespace_length_le (xs : List Nat) :
    (pdfConsumeWhitespace xs).length ≤ xs.length :=
  pdfConsumeWhitespace_le_aux xs.length xs le_rfl

/-- Body loop of ReadName (identical in pdf.go and parser.go): stop at
whitespace or a delimiter (leaving it), resolve `#HH` escapes with up to
two hex digits (missing digits default to `0`), and at end of input return
the bytes accumulated so far without error. -/
def nameLoop (acc : List Nat) : List Nat → List Nat × List Nat
  | [] => (acc, [])
  | b :: bs =>
    if isDelimiterByte b || isWhitespaceByte b then (acc, b :: bs)
    else if b = 35 then
      match bs with
      | [] => nameLoop (acc ++ [0]) []
      | c :: cs =>
        if ¬ isHexByte c then nameLoop (acc ++ [0]) (c :: cs)
        else
          match cs with
          | [] => nameLoop (acc ++ [16 * hexVal c]) []
          | d :: ds =>
            if ¬ isHexByte d then nameLoop (acc ++ [16 * hexVal c]) (d :: ds)
            else nameLoop (acc ++ [16 * hexVal c + hexVal d]) ds
    else nameLoop (acc ++ [b]) bs
termination_by xs => xs.length
decreasing_by all_goals simp <;> omega

/-- Parser.ReadName (parser.go): after whitespace the first byte must be `/`
(consumed, with an `Expected /` error otherwise); then the body loop. -/
def parserReadName (xs : List Nat) : PRes (List Nat) :=
  match parserConsumeWhitespace xs with
  | [] => ⟨[], some .read, []⟩
  | b :: bs =>
    if b = 47 then
      let r := nameLoop [] bs
      ⟨r.1, none, r.2⟩
    else ⟨[], some (.expected "Expected /"), bs⟩

/-- Pdf.readName (pdf.go): as the Parser variant, except that a leading `>`
discards one further byte and returns the EndOfDictionary sentinel. -/
def pdfReadName (xs : List Nat) : PRes (List Nat) :=
  match pdfConsumeWhitespace xs with
  | [] => ⟨[], some .read, []⟩
  | b :: bs =>
    if b = 62 then ⟨[], some .endOfDictionary, bs.drop 1⟩
    else if b = 47 then
      let r := nameLoop [] bs
      ⟨r.1, none, r.2⟩
    else ⟨[], some (.expected "Expected /"), bs⟩

/-- Special escape letters of literal strings: n r t b f. -/
def mapEscapeByte (c : Nat) : Nat :=
  if c = 110 then 10
  else if c = 114 then 13
  else if c = 116 then 9
  else if c = 98 then 8
  else if c = 102 then 12
  else c

/-- Octal digit byte. -/
def isOctalByte (b : Nat) : Bool := 48 ≤ b && b ≤ 55

/-- Body loop of ReadString (identical in pdf.go and parser.go): balanced
parens, backslash escapes (line continuations, special letters, octal codes
of up to three digits where an overflowing third digit is unread), returning
the accumulated bytes and the rest; end of input returns the bytes so far. -/
def stringLoop (acc : List Nat) (op : Nat) : List Nat → List Nat × List Nat
  | [] => (acc, [])
  | 92 :: rest =>
    match rest with
    | [] => (acc ++ [92], [])
    | c :: cs =>
      if c = 10 then stringLoop acc op cs
      else if c = 13 then
        match cs with
        | [] => (acc, [])
        | 10 :: ds => stringLoop acc op ds
        | ds => stringLoop acc op ds
      else
        let c2 := mapEscapeByte c
        if isOctalByte c2 then
          match cs with
          | [] => stringLoop (acc ++ [c2 - 48]) op []
          | d :: ds =>
            if ¬ isOctalByte d then stringLoop (acc ++ [c2 - 48]) op (d :: ds)
            else
              match ds with
              | [] => stringLoop (acc ++ [8 * (c2 - 48) + (d - 48)]) op []
              | e :: es =>
                if ¬ isOctalByte e then
                  stringLoop (acc ++ [8 * (c2 - 48) + (d - 48)]) op (e :: es)
                else
                  if 255 < 64 * (c2 - 48) + 8 * (d - 48) + (e - 48) then
                    stringLoop (acc ++ [8 * (c2 - 48) + (d - 48)]) op (e :: es)
                  else
                    stringLoop (acc ++ [64 * (c2 - 48) + 8 * (d - 48) + (e - 48)]) op es
        else stringLoop (acc ++ [c2]) op cs
  | 40 :: rest => stringLoop (acc ++ [40]) (op + 1) rest
  | 41 :: rest => if op = 1 then (acc, rest) else stringLoop (acc ++ [41]) (op - 1) rest
  | b :: rest => stringLoop (acc ++ [b]) op rest
termination_by xs => xs.length
decreasing_by all_goals simp <;> omega

/-- Parser.ReadString (parser.go): after whitespace the first byte must be
`(`; the collected bytes pass through the string decryptor. -/
def parserReadString (dec : List Nat → List Nat) (xs : List Nat) : PRes (List Nat) :=
  match parserConsumeWhitespace xs with
  | [] => ⟨[], some .read, []⟩
  | b :: bs =>
    if b = 40 then
      let r := stringLoop [] 1 bs
      ⟨dec r.1, none, r.2⟩
    else ⟨[], some (.expected "Expected ("), bs⟩

/-- Pdf.readString (pdf.go): same body without a decryptor. -/
def pdfReadString (xs : List Nat) : PRes (List Nat) :=
  match pdfConsumeWhitespace xs with
  | [] => ⟨[], some .read, []⟩
  | b :: bs =>
    if b = 40 then
      let r := stringLoop [] 1 bs
      ⟨r.1, none, r.2⟩
    else ⟨[], some (.expected "Expected ("), bs⟩

/-- Close out a hex string: a pending odd digit is right-padded with `0`. -/
def hexFinish (acc : List Nat) : Option Nat → List Nat
  | none => acc
  | some c => acc ++ [16 * hexVal c]

/-- Body loop of ReadHexString for the Parser variant: whitespace is skipped
between digits (with the Parser whitespace/comment skipper), non-hex bytes
are skipped, `>` or end of input terminates. -/
def parserHexLoop (acc : List Nat) (slot : Option Nat) (xs : List Nat) :
    List Nat × List Nat :=
  match h : parserConsumeWhitespace xs with
  | [] => (hexFinish acc slot, [])
  | b :: rest =>
    if b = 62 then (hexFinish acc slot, rest)
    else if ¬ isHexByte b then parserHexLoop acc slot rest
    else
      match slot with
      | none => parserHexLoop acc (some b) rest
      | some c => parserHexLoop (acc ++ [16 * hexVal c + hexVal b]) none rest
termination_by xs.length
decreasing_by
  all_goals
    have hl := parserConsumeWhitespace_length_le xs
    rw [h] at hl
    simp at hl ⊢
    omega

/-- Body loop of ReadHexString for the Pdf variant (Pdf whitespace skipper). -/
def pdfHexLoop (acc : List Nat) (slot : Option Nat) (xs : List Nat) :
    List Nat × List Nat :=
  match h : pdfConsumeWhitespace xs with
  | [] => (hexFinish acc slot, [])
  | b :: rest =>
    if b = 62 then (hexFinish acc slot, rest)
    else if ¬ isHexByte b then pdfHexLoop acc slot rest
    else
      match slot with
      | none => pdfHexLoop acc (some b) rest
      | some c => pdfHexLoop (acc ++ [16 * hexVal c + hexVal b]) none rest
termination_by xs.length
decreasing_by
  all_goals
    have hl := pdfConsumeWhitespace_length_le xs
    rw [h] at hl
    simp at hl ⊢
    omega

/-- Parser.ReadHexString (parser.go): `<` then the hex loop; the collected
bytes pass through the string decryptor. -/
def parserReadHexString (dec : List Nat → List Nat) (xs : List Nat) :
    PRes (List Nat) :=
  match parserConsumeWhitespace xs with
  | [] => ⟨[], some .read, []⟩
  | b :: bs =>
    if b = 60 then
      let r := parserHexLoop [] none bs
      ⟨dec r.1, none, r.2⟩
    else ⟨[], some (.expected "Expected <"), bs⟩

/-- Pdf.readHexString (pdf.go): same body without a decryptor. -/
def pdfReadHexString (xs : List Nat) : PRes (List Nat) :=
  match pdfConsumeWhitespace xs with
  | [] => ⟨[], some .read, []⟩
  | b :: bs =>
    if b = 60 then
      let r := pdfHexLoop [] none bs
      ⟨r.1, none, r.2⟩
    else ⟨[], some (.expected "Expected <"), bs⟩

/-- Object values produced by the parsers.  The source uses interface-based
polymorphism (Number, String, Name, Array, Dictionary, *Reference, Keyword);
the null object is the null keyword.  A Reference drops the back-pointer to
the owning document, keeping number and generation. -/
inductive Object where
  | number (q : Rat)
  | str (s : List Nat)
  | name (s : List Nat)
  | array (elems : List Object)
  | dict (entries : List (String × Object))
  | ref (num : Int) (gen : Int)
  | keyword (k : Keyword)

/-- The null object: the null keyword, as in the source. -/
def NullObj : Object := .keyword .null

/-- Go map assignment on the association-list model of Dictionary: replace
an existing binding for the key or append a new one. -/
def dictInsert (d : List (String × Object)) (k : String) (v : Object) :
    List (String × Object) :=
  if d.any (fun p => p.1 = k) then
    d.map (fun p => if p.1 = k then (k, v) else p)
  else d ++ [(k, v)]

/-- Go map lookup. -/
def dictLookup (d : List (String × Object)) (k : String) : Option Object :=
  (d.find? (fun p => p.1 = k)).map Prod.snd

/-- Go map key-membership test (`Contains`). -/
def dictContains (d : List (String × Object)) (k : String) : Bool :=
  d.any (fun p => p.1 = k)

/-- Bytes of a name as a dictionary key string. -/
def bytesToString (bs : List Nat) : String :=
  String.mk (bs.map Char.ofNat)

mutual

/-- Parser.ReadObject (parser.go): dispatch on the next bytes after
whitespace - name, array, end-of-array sentinel, string, dictionary,
end-of-dictionary sentinel, hex string, number with the speculative
number-vs-reference probe (saving the position reached after the number
and restoring it when no `G R` continuation follows), keyword fallback.
The first argument of each function in this mutual block is fuel; the
source's array/dictionary loops can fail to make progress on malformed
input (e.g. a stray `)` inside an array), so recursion is fuelled and an
exhausted recursion returns the `fuelOut` marker. -/
def parserReadObject (dec : List Nat → List Nat) : Nat → List Nat → PRes Object
  | 0, xs => ⟨NullObj, some .fuelOut, xs⟩
  | fuel + 1, xs =>
    let ys := parserConsumeWhitespace xs
    match ys with
    | [] => ⟨NullObj, some .read, []⟩
    | b :: bs =>
      if b = 47 then
        let r := parserReadName ys
        ⟨.name r.val, r.err, r.rest⟩
      else if b = 91 then
        let r := parserReadArray dec fuel ys
        ⟨.array r.val, r.err, r.rest⟩
      else if b = 93 then ⟨NullObj, some .endOfArray, bs⟩
      else if b = 40 then
        let r := parserReadString dec ys
        ⟨.str r.val, r.err, r.rest⟩
      else if b = 60 && bs.head? = some 60 then
        let r := parserReadDictionary dec fuel ys
        ⟨.dict r.val, r.err, r.rest⟩
      else if b = 62 && bs.head? = some 62 then
        ⟨NullObj, some .endOfDictionary, bs.drop 1⟩
      else if b = 60 then
        let r := parserReadHexString dec ys
        ⟨.str r.val, r.err, r.rest⟩
      else if isDigitByte b || b = 43 || b = 45 || b = 46 then
        let r := parserReadNumber ys
        match r.err with
        | some e => ⟨.number r.val, some e, r.rest⟩
        | none =>
          let ri := parserReadInt64 r.rest
          match ri.err with
          | some _ => ⟨.number r.val, none, r.rest⟩
          | none =>
            let k := parserReadKeyword ri.rest
            if k.1 = .R then ⟨.ref (goInt r.val) ri.val, none, k.2⟩
            else ⟨.number r.val, none, r.rest⟩
      else
        let k := parserReadKeyword ys
        ⟨.keyword k.1, none, k.2⟩

/-- Parser.ReadArray (parser.go): `[` then elements until ErrorRead or the
end-of-array sentinel; elements returned with other errors are appended and
the loop continues. -/
def parserReadArray (dec : List Nat → List Nat) : Nat → List Nat → PRes (List Object)
  | 0, xs => ⟨[], some .fuelOut, xs⟩
  | fuel + 1, xs =>
    match parserConsumeWhitespace xs with
    | [] => ⟨[], some .read, []⟩
    | b :: bs =>
      if b = 91 then parserArrayLoop dec fuel [] bs
      else ⟨[], some (.expected "Expected ["), bs⟩

/-- Element loop of Parser.ReadArray. -/
def parserArrayLoop (dec : List Nat → List Nat) :
    Nat → List Object → List Nat → PRes (List Object)
  | 0, acc, xs => ⟨acc, some .fuelOut, xs⟩
  | fuel + 1, acc, xs =>
    let r := parserReadObject dec fuel xs
    if r.err = some .read || r.err = some .endOfArray then ⟨acc, none, r.rest⟩
    else if r.err = some .fuelOut then ⟨acc, some .fuelOut, r.rest⟩
    else parserArrayLoop dec fuel (acc ++ [r.val]) r.rest

/-- Parser.ReadDictionary (parser.go): `<<` then key/value pairs; a key
that is not a name (or that came with a recoverable error) is dropped and
scanning continues; ErrorRead or the end-of-dictionary sentinel stops. -/
def parserReadDictionary (dec : List Nat → List Nat) :
    Nat → List Nat → PRes (List (String × Object))
  | 0, xs => ⟨[], some .fuelOut, xs⟩
  | fuel + 1, xs =>
    match parserConsumeWhitespace xs with
    | [] => ⟨[], some .read, []⟩
    | [a] => ⟨[], some (.expected "Expected <<"), []⟩
    | a :: b :: rest =>
      if a = 60 && b = 60 then parserDictLoop dec fuel [] rest
      else ⟨[], some (.expected "Expected <<"), rest⟩

/-- Pair loop of Parser.ReadDictionary. -/
def parserDictLoop (dec : List Nat → List Nat) :
    Nat → List (String × Object) → List Nat → PRes (List (String × Object))
  | 0, acc, xs => ⟨acc, some .fuelOut, xs⟩
  | fuel + 1, acc, xs =>
    let r := parserReadObject dec fuel xs
    if r.err = some .read || r.err = some .endOfDictionary then ⟨acc, none, r.rest⟩
    else if r.err = some .fuelOut then ⟨acc, some .fuelOut, r.rest⟩
    else
      match r.val, r.err with
      | .name s, none =>
        let v := parserReadObject dec fuel r.rest
        let acc2 := dictInsert acc (bytesToString s) v.val
        if v.err = some .read || v.err = some .endOfDictionary then ⟨acc2, none, v.rest⟩
        else if v.err = some .fuelOut then ⟨acc2, some .fuelOut, v.rest⟩
        else parserDictLoop dec fuel acc2 v.rest
      | _, _ => parserDictLoop dec fuel acc r.rest

end

mutual

/-- Pdf.readObject (pdf.go): as the Parser variant, with the narrower
keyword charset dispatch (`[a-z]` and `R` before the digit branch) and an
explicit `Expected ...` error on unknown leading bytes. -/
def pdfReadObject : Nat → List Nat → PRes Object
  | 0, xs => ⟨NullObj, some .fuelOut, xs⟩
  | fuel + 1, xs =>
    let ys := pdfConsumeWhitespace xs
    match ys with
    | [] => ⟨NullObj, some .read, []⟩
    | b :: bs =>
      if b = 47 then
        let r := pdfReadName ys
        ⟨.name r.val, r.err, r.rest⟩
      else if b = 91 then
        let r := pdfReadArray fuel ys
        ⟨.array r.val, r.err, r.rest⟩
      else if b = 93 then ⟨NullObj, some .endOfArray, bs⟩
      else if b = 40 then
        let r := pdfReadString ys
        ⟨.str r.val, r.err, r.rest⟩
      else if b = 60 && bs.head? = some 60 then
        let r := pdfReadDictionary fuel ys
        ⟨.dict r.val, r.err, r.rest⟩
      else if b = 62 && bs.head? = some 62 then
        ⟨NullObj, some .endOfDictionary, bs.drop 1⟩
      else if b = 60 then
        let r := pdfReadHexString ys
        ⟨.str r.val, r.err, r.rest⟩
      else if (97 ≤ b && b ≤ 122) || b = 82 then
        let k := pdfReadKeyword ys
        ⟨.keyword k.1, none, k.2⟩
      else if isDigitByte b || b = 43 || b = 45 || b = 46 then
        let r := pdfReadNumber ys
        match r.err with
        | some e => ⟨.number r.val, some e, r.rest⟩
        | none =>
          let ri := pdfReadInt64 r.rest
          match ri.err with
          | some _ => ⟨.number r.val, none, r.rest⟩
          | none =>
            let k := pdfReadKeyword ri.rest
            if k.1 = .R then ⟨.ref (goInt r.val) ri.val, none, k.2⟩
            else ⟨.number r.val, none, r.rest⟩
      else
        ⟨NullObj,
          some (.expected
            "Expected array, dictionary, keyword, name, number, reference or string"),
          ys⟩

/-- Pdf.readArray (pdf.go): elements until the first error of any kind
(the erroring element is not appended). -/
def pdfReadArray : Nat → List Nat → PRes (List Object)
  | 0, xs => ⟨[], some .fuelOut, xs⟩
  | fuel + 1, xs =>
    match pdfConsumeWhitespace xs with
    | [] => ⟨[], some .read, []⟩
    | b :: bs =>
      if b = 91 then pdfArrayLoop fuel [] bs
      else ⟨[], some (.expected "Expected ["), bs⟩

/-- Element loop of Pdf.readArray. -/
def pdfArrayLoop : Nat → List Object → List Nat → PRes (List Object)
  | 0, acc, xs => ⟨acc, some .fuelOut, xs⟩
  | fuel + 1, acc, xs =>
    let r := pdfReadObject fuel xs
    match r.err with
    | some .fuelOut => ⟨acc, some .fuelOut, r.rest⟩
    | some _ => ⟨acc, none, r.rest⟩
    | none => pdfArrayLoop fuel (acc ++ [r.val]) r.rest

/-- Pdf.readDictionary (pdf.go): `<<` then key/value pairs where keys are
read with readName; any key error stops the loop, a value error stops it
after the pair is inserted. -/
def pdfReadDictionary : Nat → List Nat → PRes (List (String × Object))
  | 0, xs => ⟨[], some .fuelOut, xs⟩
  | fuel + 1, xs =>
    match pdfConsumeWhitespace xs with
    | [] => ⟨[], some .read, []⟩
    | [a] => ⟨[], some (.expected "Expected <<"), []⟩
    | a :: b :: rest =>
      if a = 60 && b = 60 then pdfDictLoop fuel [] rest
      else ⟨[], some (.expected "Expected <<"), rest⟩

/-- Pair loop of Pdf.readDictionary. -/
def pdfDictLoop : Nat → List (String × Object) → List Nat → PRes (List (String × Object))
  | 0, acc, xs => ⟨acc, some .fuelOut, xs⟩
  | fuel + 1, acc, xs =>
    let k := pdfReadName xs
    match k.err with
    | some _ => ⟨acc, none, k.rest⟩
    | none =>
      let v := pdfReadObject fuel k.rest
      let acc2 := dictInsert acc (bytesToString k.val) v.val
      match v.err with
      | some .fuelOut => ⟨acc2, some .fuelOut, v.rest⟩
      | some _ => ⟨acc2, none, v.rest⟩
      | none => pdfDictLoop fuel acc2 v.rest

end

/-!
Typed getters on Dictionary and Array values.  The file defining them
(`dictionary.go` of this repository version) is not under src/; they are
modelled from the spec: "typed getters ... return a value-or-error pair and
never panic.  A missing key and a key with the wrong variant are
indistinguishable" - here `Option`, with `none` as the error.  Reference
values are not resolved by the modelled getters; the theorems below only
instantiate them with direct values. -/

/-- Modelled from the spec: GetArray. -/
def getArray (d : List (String × Object)) (k : String) : Option (List Object) :=
  match dictLookup d k with
  | some (.array a) => some a
  | _ => none

/-- Modelled from the spec: GetDictionary. -/
def getDictionary (d : List (String × Object)) (k : String) :
    Option (List (String × Object)) :=
  match dictLookup d k with
  | some (.dict e) => some e
  | _ => none

/-- Modelled from the spec: GetName, as a Go string. -/
def getName (d : List (String × Object)) (k : String) : Option String :=
  match dictLookup d k with
  | some (.name s) => some (bytesToString s)
  | _ => none

/-- Modelled from the spec: GetName keeping the raw name bytes. -/
def getNameBytes (d : List (String × Object)) (k : String) : Option (List Nat) :=
  match dictLookup d k with
  | some (.name s) => some s
  | _ => none

/-- Modelled from the spec: GetNumber. -/
def getNumber (d : List (String × Object)) (k : String) : Option Rat :=
  match dictLookup d k with
  | some (.number q) => some q
  | _ => none

/-- Modelled from the spec: GetInt / GetInt64 (int(float64) truncation). -/
def getInt (d : List (String × Object)) (k : String) : Option Int :=
  (getNumber d k).map goInt

/-- Modelled from the spec: GetBytes (string value as raw bytes). -/
def getBytes (d : List (String × Object)) (k : String) : Option (List Nat) :=
  match dictLookup d k with
  | some (.str s) => some s
  | _ => none

/-- Modelled from the spec: GetBool (the true/false keywords). -/
def getBool (d : List (String × Object)) (k : String) : Option Bool :=
  match dictLookup d k with
  | some (.keyword .litTrue) => some true
  | some (.keyword .litFalse) => some false
  | _ => none

/-- Modelled from the spec: Array.GetInt. -/
def arrGetInt (a : List Object) (i : Nat) : Option Int :=
  match a[i]? with
  | some (.number q) => some (goInt q)
  | _ => none

/-- Modelled from the spec: Array.GetNumber. -/
def arrGetNumber (a : List Object) (i : Nat) : Option Rat :=
  match a[i]? with
  | some (.number q) => some q
  | _ => none

/-- Modelled from the spec: Array.GetName as a Go string. -/
def arrGetName (a : List Object) (i : Nat) : Option String :=
  match a[i]? with
  | some (.name s) => some (bytesToString s)
  | _ => none

/-- Modelled from the spec: Array.GetDictionary. -/
def arrGetDictionary (a : List Object) (i : Nat) :
    Option (List (String × Object)) :=
  match a[i]? with
  | some (.dict e) => some e
  | _ => none

/-- Modelled from the spec: Array.GetBytes. -/
def arrGetBytes (a : List Object) (i : Nat) : Option (List Nat) :=
  match a[i]? with
  | some (.str s) => some s
  | _ => none

/-- The 9 bytes of the `endstream` marker. -/
def endstreamMarker : List Nat := strBytes "endstream"

/-- First loop of ReadStream (identical in pdf.go and parser.go): consume
bytes until a `\n`, or a `\r` optionally followed by `\n` (a following
non-`\n` byte is stream content and stays).  `none` models the early
returns at end of input, where the collected stream data is empty. -/
def skipStreamEOL : List Nat → Option (List Nat)
  | [] => none
  | b :: bs =>
    if b = 10 then some bs
    else if b = 13 then
      match bs with
      | [] => none
      | 10 :: cs => some cs
      | cs => some cs
    else skipStreamEOL bs

/-- Rolling 9-byte window loop of ReadStream: the window starts as the next
9 bytes; while it differs from `endstream` the oldest window byte moves to
the output and the next input byte enters the window; at end of input the
window remainder is flushed to the output.  The Bool records whether the
marker was found (output trimming happens only then). -/
def windowScan (window acc input : List Nat) : Bool × List Nat :=
  if window = endstreamMarker then (true, acc)
  else
    match window with
    | [] => (false, acc)
    | w :: ws =>
      match input with
      | [] => (false, acc ++ (w :: ws))
      | c :: cs => windowScan (ws ++ [c]) (acc ++ [w]) cs
termination_by input.length

/-- Trailing end-of-line trimming of ReadStream: one `\r\n`, `\n`, or `\r`
is removed from the end of the collected bytes. -/
def trimStreamEOL (s : List Nat) : List Nat :=
  match s.getLast? with
  | some 10 =>
    if s.dropLast.getLast? = some 13 then s.dropLast.dropLast else s.dropLast
  | some 13 => s.dropLast
  | _ => s

/-- Raw byte extraction of ReadStream, from the position just after the
`stream` keyword: skip the end-of-line, run the window scan, trim when the
marker was found. -/
def readStreamCore (data : List Nat) : List Nat :=
  match skipStreamEOL data with
  | none => []
  | some rest =>
    let r := windowScan (rest.take 9) [] (rest.drop 9)
    if r.1 then trimStreamEOL r.2 else r.2

/-- Modelled from the spec (claim C4 wording): split the input at the first
occurrence of the 9-byte `endstream` marker, returning the bytes before it
and the bytes after it, or `none` when the marker does not occur. -/
def firstMarkerSplit : List Nat → Option (List Nat × List Nat)
  | [] => none
  | x :: xs =>
    if (x :: xs).take 9 = endstreamMarker then some ([], (x :: xs).drop 9)
    else
      match firstMarkerSplit xs with
      | some (p, r) => some (x :: p, r)
      | none => none

/-- Decode-filter chain shared by both ReadStream variants.  `decode` is
the external DecodeStream collaborator (`none` = decode error); on error
the bytes decoded so far are returned.  `dpl` is the DecodeParms list,
indexed in step with the filter list (`GetName` and `GetDictionary` errors
give the empty name and a nil dictionary, as in the source). -/
def applyFilterChain (decode : String → List Nat → Option (List (String × Object)) → Option (List Nat))
    (dpl : List Object) : Nat → List Object → List Nat → List Nat
  | _, [], bytes => bytes
  | i, f :: fs, bytes =>
    let fname :=
      match f with
      | .name s => bytesToString s
      | _ => ""
    match decode fname bytes (arrGetDictionary dpl i) with
    | none => bytes
    | some out => applyFilterChain decode dpl (i + 1) fs out

/-- Pdf.readStream (pdf.go): raw extraction, then the filter chain driven
by the `Filter` entry of the stream dictionary (an array of names with a
parallel DecodeParms array, or a single name with a single dictionary, or
absent). -/
def pdfReadStream
    (decode : String → List Nat → Option (List (String × Object)) → Option (List Nat))
    (d : List (String × Object)) (data : List Nat) : List Nat :=
  let raw := readStreamCore data
  match getArray d "Filter" with
  | some fl =>
    let dpl := (getArray d "DecodeParms").getD []
    applyFilterChain decode dpl 0 fl raw
  | none =>
    match getNameBytes d "Filter" with
    | some f =>
      match decode (bytesToString f) raw (getDictionary d "DecodeParms") with
      | none => raw
      | some out => out
    | none => raw

/-- Parser.ReadStream (parser.go): raw extraction, decryption with the
stream decryptor, then the filter chain over the filter/parms lists the
caller assembled. -/
def parserReadStream
    (decode : String → List Nat → Option (List (String × Object)) → Option (List Nat))
    (dec : List Nat → List Nat) (filterList dpl : List Object)
    (data : List Nat) : List Nat :=
  let raw := readStreamCore data
  applyFilterChain decode dpl 0 filterList (dec raw)

/-- Xref entry (xref.go, plus the `IsEncrypted` / `IsEmbeddedFile` flags the
Parser variant uses; the parser-era xref.go is not under src/ and those two
flags are modelled from the spec: default true resp. false). -/
structure XrefEntry where
  offset : Int
  generation : Int
  xtype : Int
  isEncrypted : Bool := true
  isEmbeddedFile : Bool := false
deriving DecidableEq, Repr

/-- Modelled from the spec: xref entry type constants - Free=0, InUse=1,
Compressed=2 (the values of the type column of xref streams, section 4.4
of the spec). -/
def XrefTypeFreeObject : Int := 0

/-- In-use xref entry type constant. -/
def XrefTypeIndirectObject : Int := 1

/-- NewXrefEntry (xref.go). -/
def NewXrefEntry (offset generation xtype : Int) : XrefEntry :=
  ⟨offset, generation, xtype, true, false⟩

/-- The xref map, object number to entry: a Go map modelled as the function
it computes. -/
def XrefMap : Type := Int → Option XrefEntry

/-- The empty xref map. -/
def xrefEmpty : XrefMap := fun _ => none

/-- Go map lookup for the xref map. -/
def xrefLookup (m : XrefMap) (k : Int) : Option XrefEntry := m k

/-- Go map assignment for the xref map. -/
def xrefInsert (m : XrefMap) (k : Int) (e : XrefEntry) : XrefMap :=
  fun k2 => if k2 = k then some e else m k2

/-- Indirect object (object.go): number, generation, value, optional stream
bytes; NewIndirectObject initialises the value to the null object, the
generation to 0 and no stream. -/
structure IndirectObject where
  number : Int
  generation : Int
  value : Object
  stream : Option (List Nat)

/-- NewIndirectObject (object.go). -/
def NewIndirectObject (number : Int) : IndirectObject :=
  ⟨number, 0, NullObj, none⟩

/-- Crypt-filter slots of the security handler as used by Parser.GetObject:
each is `NewDecryptor(n, g).Decrypt` as a function.  The parser-era
encryption glue (`Decryptor`, `noDecryptor`, `defaultSecurityHandler`) is
not under src/; modelled from the spec, with Identity (the identity
function) as the default for all slots. -/
structure SHFilters where
  string_filter : Int → Int → List Nat → List Nat
  stream_filter : Int → Int → List Nat → List Nat
  file_filter : Int → Int → List Nat → List Nat
  crypt_filters : List (String × (Int → Int → List Nat → List Nat))

/-- Modelled from the spec: the default (no-encryption) security handler -
every filter is Identity. -/
def shDefault : SHFilters :=
  ⟨fun _ _ d => d, fun _ _ d => d, fun _ _ d => d, [("Identity", fun _ _ d => d)]⟩

/-- Crypt-filter lookup in the handler map. -/
def shCryptLookup (sh : SHFilters) (k : String) :
    Option (Int → Int → List Nat → List Nat) :=
  ((sh.crypt_filters).find? (fun p => p.1 = k)).map Prod.snd

/-- Parser.GetObject (parser.go): look the object number up in the xref;
absent or not-in-use entries give the fresh NewIndirectObject (null value,
no stream); in-use entries are parsed at their offset - header skipped,
value parsed with the string decryptor salted with (number, generation),
and, when the `stream` keyword follows, the stream read with the selected
stream/file/override crypt filter and the decode filter chain.  The parse
result's error is discarded, as in the source (`object.Value, _ = ...`). -/
def parserGetObject
    (decode : String → List Nat → Option (List (String × Object)) → Option (List Nat))
    (sh : SHFilters) (xref : XrefMap) (data : List Nat)
    (number : Int) : IndirectObject :=
  match xrefLookup xref number with
  | none => NewIndirectObject number
  | some e =>
    if e.xtype = XrefTypeIndirectObject then
      let afterSeek := data.drop e.offset.toNat
      let h1 := parserReadInt64 afterSeek
      let h2 := parserReadInt64 h1.rest
      let h3 := parserReadKeyword h2.rest
      let sdec := sh.string_filter number e.generation
      let rv := parserReadObject sdec (data.length + 1) h3.2
      let k := parserReadKeyword rv.rest
      if k.1 = .stream then
        let d := match rv.val with | .dict entries => entries | _ => []
        let filterList0 :=
          match getArray d "Filter" with
          | some fl => fl
          | none =>
            match getNameBytes d "Filter" with
            | some f => [Object.name f]
            | none => []
        let dpl0 :=
          match getArray d "DecodeParms" with
          | some pl => pl
          | none =>
            match getDictionary d "DecodeParms" with
            | some pd => [Object.dict pd]
            | none => []
        let sel :=
          if e.isEncrypted then
            let base := if e.isEmbeddedFile then sh.file_filter else sh.stream_filter
            if (arrGetName filterList0 0).getD "" = "Crypt" then
              let parms0 := (arrGetDictionary dpl0 0).getD []
              let fname := (getName parms0 "Name").getD "Identity"
              let crypt := (shCryptLookup sh fname).getD base
              (crypt, filterList0.drop 1, dpl0.drop 1)
            else (base, filterList0, dpl0)
          else (fun _ _ d => d, filterList0, dpl0)
        let streamDec := sel.1 number e.generation
        ⟨number, e.generation, rv.val,
          some (parserReadStream decode streamDec sel.2.1 sel.2.2 k.2)⟩
      else ⟨number, e.generation, rv.val, none⟩
    else NewIndirectObject number

/-- Pdf.ReadObject (pdf.go): as the Parser variant without decryption; the
generation is copied to the result even for free entries, and the stream
dictionary drives the decode filter chain directly. -/
def pdfReadIndirectObject
    (decode : String → List Nat → Option (List (String × Object)) → Option (List Nat))
    (xref : XrefMap) (data : List Nat)
    (number : Int) : IndirectObject :=
  match xrefLookup xref number with
  | none => NewIndirectObject number
  | some e =>
    if e.xtype = XrefTypeIndirectObject then
      let afterSeek := data.drop e.offset.toNat
      let h1 := pdfReadInt64 afterSeek
      let h2 := pdfReadInt64 h1.rest
      let h3 := pdfReadKeyword h2.rest
      let rv := pdfReadObject (data.length + 1) h3.2
      let k := pdfReadKeyword rv.rest
      if k.1 = .stream then
        let d := match rv.val with | .dict entries => entries | _ => []
        ⟨number, e.generation, rv.val, some (pdfReadStream decode d k.2)⟩
      else ⟨number, e.generation, rv.val, none⟩
    else ⟨number, e.generation, NullObj, none⟩

/-- Merge of one xref entry in the Pdf variant (pdf.go, readXrefTable and
readXrefStream): the entry is written only when the object number is absent
or the new generation is strictly greater than the stored one. -/
def mergeXrefPdf (m : XrefMap) (num : Int) (e : XrefEntry) : XrefMap :=
  match xrefLookup m num with
  | none => xrefInsert m num e
  | some old => if e.generation > old.generation then xrefInsert m num e else m

/-- Entry-list fold of the Pdf merge policy. -/
def pdfApplyEntries (m : XrefMap) (ents : List (Int × XrefEntry)) : XrefMap :=
  ents.foldl (fun acc p => mergeXrefPdf acc p.1 p.2) m

/-- Entry-list fold of the Parser merge policy (parser.go, LoadXrefTable
line 333 and LoadXrefStream line 420): plain map assignment, the new entry
always wins. -/
def parserApplyEntries (m : XrefMap) (ents : List (Int × XrefEntry)) : XrefMap :=
  ents.foldl (fun acc p => xrefInsert acc p.1 p.2) m

/-- One parsed row of an xref table subsection: offset, generation, and the
in-use flag keyword (`n` in-use, anything else free), as readXrefTable
builds the entry. -/
def tableRowEntry (r : Int × Int × Keyword) : XrefEntry :=
  NewXrefEntry r.1 r.2.1
    (if r.2.2 = Keyword.n then XrefTypeIndirectObject else XrefTypeFreeObject)

/-- Pdf.readXrefTable applied to one parsed subsection `start count ...`:
row i gets object number start + i and entries merge under the
strictly-greater-generation rule. -/
def pdfApplySubsection (m : XrefMap) (start : Int)
    (rows : List (Int × Int × Keyword)) : XrefMap :=
  pdfApplyEntries m (rows.enum.map (fun p => (start + p.1, tableRowEntry p.2)))

/-- Modelled from the spec (section 4.4; the reader helpers `ReadInt` /
`ReadInt64` used on the xref stream data live in a file that is not under
src/): read `w` bytes big-endian unsigned from the data reader; too few
bytes is a read error. -/
def readBE (w : Nat) (data : List Nat) : Option (Int × List Nat) :=
  if data.length < w then none
  else some ((data.take w).foldl (fun a b => a * 256 + (b : Int)) 0, data.drop w)

/-- Record loop of Parser.LoadXrefStream (parser.go lines 402-421) for one
subsection: `count` records of widths (w1, w2, w3) produce entries
`NewXrefEntry offset generation type` assigned unconditionally into the
xref map at start, start+1, ...; a short read stops with the entries
inserted so far kept (the Bool is the success flag). -/
def parserXrefStreamRecords (w1 w2 w3 : Nat) :
    Nat → Int → XrefMap → List Nat → XrefMap × Bool × List Nat
  | 0, _, m, data => (m, true, data)
  | j + 1, num, m, data =>
    match readBE w1 data with
    | none => (m, false, data)
    | some (t, d1) =>
      match readBE w2 d1 with
      | none => (m, false, d1)
      | some (off, d2) =>
        match readBE w3 d2 with
        | none => (m, false, d2)
        | some (g, d3) =>
          parserXrefStreamRecords w1 w2 w3 j (num + 1)
            (xrefInsert m num (NewXrefEntry off g t)) d3

/-- Subsection loop of Parser.LoadXrefStream over the parsed `Index` pairs. -/
def parserXrefStreamSubsections (w1 w2 w3 : Nat) (m : XrefMap) :
    List (Int × Int) → List Nat → XrefMap
  | [], _ => m
  | (start, count) :: more, data =>
    let r := parserXrefStreamRecords w1 w2 w3 count.toNat start m data
    if r.2.1 then parserXrefStreamSubsections w1 w2 w3 r.1 more r.2.2 else r.1

/-- Record loop of Pdf.readXrefStream (pdf.go lines 291-312): identical to
the Parser variant except that entries merge under the
strictly-greater-generation rule. -/
def pdfXrefStreamRecords (w1 w2 w3 : Nat) :
    Nat → Int → XrefMap → List Nat → XrefMap × Bool × List Nat
  | 0, _, m, data => (m, true, data)
  | j + 1, num, m, data =>
    match readBE w1 data with
    | none => (m, false, data)
    | some (t, d1) =>
      match readBE w2 d1 with
      | none => (m, false, d1)
      | some (off, d2) =>
        match readBE w3 d2 with
        | none => (m, false, d2)
        | some (g, d3) =>
          pdfXrefStreamRecords w1 w2 w3 j (num + 1)
            (mergeXrefPdf m num (NewXrefEntry off g t)) d3

/-- An xref section as seen by the chain loaders: its parsed entry list,
its trailer dictionary, and the optional `Prev` offset from that trailer.
The byte-level parsing of a section is performed by the table/stream
readers modelled above; the chain loaders of claim C9 are modelled over a
finite map from file offsets to parsed sections. -/
structure XrefSection where
  entries : List (Int × XrefEntry)
  trailer : List (String × Object)
  prev : Option Int

/-- Lookup of the section parsed at an offset. -/
def sectionLookup (file : List (Int × XrefSection)) (off : Int) :
    Option XrefSection :=
  (file.find? (fun p => p.1 = off)).map Prod.snd

theorem sectionLookup_mem_keys (file : List (Int × XrefSection)) (off : Int)
    (sec : XrefSection) (h : sectionLookup file off = some sec) :
    off ∈ (file.map Prod.fst).toFinset := by
  unfold sectionLookup at h
  match hf : file.find? (fun p => p.1 = off) with
  | none => rw [hf] at h; simp at h
  | some pr =>
    have hmem := List.mem_of_find?_eq_some hf
    have hpred := List.find?_some hf
    simp at hpred
    simp only [List.mem_toFinset]
    rw [← hpred]
    exact List.mem_map_of_mem Prod.fst hmem

/-- Trailer merge of the Pdf variant (pdf.go lines 203-207, 234-238):
a key already present in the document trailer wins. -/
def pdfTrailerMerge (t newT : List (String × Object)) : List (String × Object) :=
  newT.foldl (fun acc p => if dictContains acc p.1 then acc else dictInsert acc p.1 p.2) t

/-- Trailer merge of the Parser variant (parser.go lines 327-329, 354-357):
plain assignment, the new value wins. -/
def parserTrailerMerge (t newT : List (String × Object)) : List (String × Object) :=
  newT.foldl (fun acc p => dictInsert acc p.1 p.2) t

/-- Loader state of the Pdf variant: the persistent visited-offset set
`pdf.xref_offsets`, the xref map and the trailer. -/
structure PdfLoadState where
  xrefOffsets : Finset Int
  xref : XrefMap
  trailer : List (String × Object)

/-- Pdf.loadXref (pdf.go lines 117-140 with readXrefTable/readXrefStream):
an offset already in `xref_offsets` returns immediately; otherwise the
offset is recorded, the section parsed there is merged (entries under the
generation rule, trailer with existing keys winning) and the loader recurses
into the `Prev` offset of that trailer.  An offset where nothing parses is
the error path: the state keeps the mutations made so far.  Lean accepts the
recursion because each recursive call visits an offset of the file map not
visited before - the cycle-safety of the claim. -/
def pdfLoadXref (file : List (Int × XrefSection)) (offset : Int)
    (st : PdfLoadState) : PdfLoadState :=
  if h0 : offset ∈ st.xrefOffsets then st
  else
    let st1 : PdfLoadState :=
      ⟨insert offset st.xrefOffsets, st.xref, st.trailer⟩
    match h1 : sectionLookup file offset with
    | none => st1
    | some sec =>
      let st2 : PdfLoadState :=
        ⟨st1.xrefOffsets, pdfApplyEntries st1.xref sec.entries,
          pdfTrailerMerge st1.trailer sec.trailer⟩
      match sec.prev with
      | none => st2
      | some p => pdfLoadXref file p st2
termination_by ((file.map Prod.fst).toFinset \ st.xrefOffsets).card
decreasing_by
  have hk := sectionLookup_mem_keys file offset sec h1
  rw [Finset.sdiff_insert]
  exact Finset.card_erase_lt_of_mem (Finset.mem_sdiff.mpr ⟨hk, h0⟩)

/-- Loader state of the Parser variant: the per-top-call visited set passed
through `LoadXref(offset, offsets)`, the xref map and the trailer. -/
structure ParserLoadState where
  visited : Finset Int
  xref : XrefMap
  trailer : List (String × Object)

/-- Parser.LoadXref (parser.go lines 238-264 with LoadXrefTable and
LoadXrefStream): the same visited-set guard; the `Prev` chain is followed
BEFORE this section's trailer and entries are merged, and both merges
overwrite unconditionally. -/
def parserLoadXref (file : List (Int × XrefSection)) (offset : Int)
    (st : ParserLoadState) : ParserLoadState :=
  if h0 : offset ∈ st.visited then st
  else
    let st1 : ParserLoadState := ⟨insert offset st.visited, st.xref, st.trailer⟩
    match h1 : sectionLookup file offset with
    | none => st1
    | some sec =>
      let st2 : ParserLoadState :=
        match sec.prev with
        | none => st1
        | some p => parserLoadXref file p st1
      ⟨st2.visited, parserApplyEntries st2.xref sec.entries,
        parserTrailerMerge st2.trailer sec.trailer⟩
termination_by ((file.map Prod.fst).toFinset \ st.visited).card
decreasing_by
  have hk := sectionLookup_mem_keys file offset sec h1
  rw [Finset.sdiff_insert]
  exact Finset.card_erase_lt_of_mem (Finset.mem_sdiff.mpr ⟨hk, h0⟩)

/-- The 32-byte password padding constant of encryption.go. -/
def paddingConstant : List Nat :=
  [0x28, 0xBF, 0x4E, 0x5E, 0x4E, 0x75, 0x8A, 0x41,
   0x64, 0x00, 0x4E, 0x56, 0xFF, 0xFA, 0x01, 0x08,
   0x2E, 0x2E, 0x00, 0xB6, 0xD0, 0x68, 0x3E, 0x80,
   0x2F, 0x0C, 0xA9, 0xFE, 0x64, 0x53, 0x69, 0x7A]

/-- binary.LittleEndian.PutUint32 of uint32(v): the four little-endian
bytes of v modulo 2^32 (the uint32 conversion wraps negative values). -/
def le32 (v : Int) : List Nat :=
  let u := (v % 4294967296).toNat
  [u % 256, u / 256 % 256, u / 65536 % 256, u / 16777216 % 256]

/-- CryptFilterAES.Init (encryption.go): salt = key ‖ first 3 LE bytes of n
‖ first 2 LE bytes of g ‖ `sAlT`; the object key is the MD5 of the salt
truncated to length+5 bytes, at most 16.  `md5` is the external hash
collaborator. -/
def aesFilterInit (md5 : List Nat → List Nat) (key : List Nat) (n g : Int) :
    List Nat :=
  let salt := key ++ (le32 n).take 3 ++ (le32 g).take 2 ++ strBytes "sAlT"
  let hashed := md5 salt
  let l := key.length + 5
  let l2 := if l > 16 then 16 else l
  hashed.take l2

/-- CryptFilterRC4.Init (encryption.go): identical salting without the
`sAlT` suffix. -/
def rc4FilterInit (md5 : List Nat → List Nat) (key : List Nat) (n g : Int) :
    List Nat :=
  let salt := key ++ (le32 n).take 3 ++ (le32 g).take 2
  let hashed := md5 salt
  let l := key.length + 5
  let l2 := if l > 16 then 16 else l
  hashed.take l2

/-- CryptFilterAES.Decrypt (encryption.go): data of at most one AES block
(16 bytes) is consumed entirely as the initialization vector and yields no
output; longer data is CBC-decrypted (the external `cbcDecrypt`
collaborator, given key, iv, and the remaining blocks). -/
def aesFilterDecrypt (cbcDecrypt : List Nat → List Nat → List Nat → List Nat)
    (key data : List Nat) : List Nat :=
  if data.length ≤ 16 then []
  else cbcDecrypt key (data.take 16) (data.drop 16)

/-- CryptFilterRC4.Decrypt (encryption.go): XOR with the RC4 keystream (the
external `rc4` collaborator, given key and data). -/
def rc4FilterDecrypt (rc4 : List Nat → List Nat → List Nat)
    (key data : List Nat) : List Nat :=
  rc4 key data

/-- A crypt filter value as built by NewSecurityHandler: the no-op filter
or an RC4/AES filter holding its encryption key. -/
inductive CryptFilterModel where
  | identity
  | rc4Filter (key : List Nat)
  | aesFilter (key : List Nat)
deriving DecidableEq, Repr

/-- Security-handler errors: ErrorPassword, or a NewError with its message
(the parser-era error constructors are not under src/; the spec
distinguishes Password from the Unsupported/Corrupt string errors, and the
message strings here are exactly the source's). -/
inductive SHErr where
  | password
  | other (msg : String)
deriving DecidableEq, Repr

/-- Algorithm 2 (computeEncryptionKey of encryption.go): pad or truncate the
password to 32 bytes with the padding constant, MD5 over password ‖ O ‖ P
(4 LE bytes) ‖ ID[0] ‖ (FF FF FF FF when R ≥ 4 and metadata is not
encrypted), truncate to key_length bytes, and for R ≥ 3 re-hash 50 times
truncating each round. -/
def computeEncryptionKey (md5 : List Nat → List Nat) (r : Int)
    (o pb idb : List Nat) (emd : Bool) (password : List Nat)
    (keyLength : Int) : List Nat :=
  let pw :=
    if password.length < 32 then
      password ++ paddingConstant.take (32 - password.length)
    else password.take 32
  let base :=
    (md5 (pw ++ o ++ pb ++ idb ++ (if r ≥ 4 && !emd then [255, 255, 255, 255] else []))).take
      keyLength.toNat
  if r ≥ 3 then
    (List.range 50).foldl (fun k _ => (md5 k).take keyLength.toNat) base
  else base

/-- The security handler state after a successful NewSecurityHandler. -/
structure SHState where
  v : Int
  length : Int
  r : Int
  o : List Nat
  u : List Nat
  p : List Nat
  encryptMetaData : Bool
  id : List Nat
  encryptionKey : List Nat
  streamFilter : CryptFilterModel
  stringFilter : CryptFilterModel
  fileFilter : CryptFilterModel
  cryptFilters : List (String × CryptFilterModel)

/-- One CF-dictionary entry turned into a crypt filter (encryption.go lines
276-295): CFM None/V2/AESV2, with the optional per-filter Length (the
handler's clamped byte length otherwise). -/
def buildCryptFilter (md5 : List Nat → List Nat) (r : Int)
    (o pb idb : List Nat) (emd : Bool) (password : List Nat) (shLength : Int)
    (entry : Object) : Option CryptFilterModel :=
  match entry with
  | .dict cfd =>
    match getName cfd "CFM" with
    | none => none
    | some method =>
      let cfLen := (getInt cfd "Length").getD shLength
      if method = "None" then some .identity
      else if method = "V2" then
        some (.rc4Filter (computeEncryptionKey md5 r o pb idb emd password cfLen))
      else if method = "AESV2" then
        some (.aesFilter (computeEncryptionKey md5 r o pb idb emd password cfLen))
      else none
  | _ => none

/-- Byte length of the encryption key (encryption.go lines 195-208): 40
bits for V=1, else the Length entry defaulted to 40; divided by 8 and
clamped to 5..16 bytes. -/
def encryptByteLength (enc : List (String × Object)) (v : Int) : Int :=
  let lBits := if v = 1 then 40 else (getInt enc "Length").getD 40
  let lBytes := Int.tdiv lBits 8
  if lBytes < 5 then 5 else if lBytes > 16 then 16 else lBytes

/-- Algorithm 4 (R=2 user-password validation, encryption.go lines
246-252): RC4-encrypt the padding constant with the file key and compare
with U. -/
abbrev algorithm4Passes (rc4 : List Nat → List Nat → List Nat)
    (key u : List Nat) : Prop :=
  rc4 key paddingConstant = u

/-- Algorithm 5 (R>=3 user-password validation, encryption.go lines
253-271): MD5 of padding ‖ ID[0], then 20 RC4 rounds where round i uses
the file key XORed bytewise with i, compared with the first 16 bytes of
U. -/
abbrev algorithm5Passes (md5 : List Nat → List Nat)
    (rc4 : List Nat → List Nat → List Nat) (key idb u : List Nat) : Prop :=
  (List.range 20).foldl (fun acc i => rc4 (key.map (fun b => b ^^^ i)) acc)
    (md5 (paddingConstant ++ idb)) = u.take 16

/-- NewSecurityHandler (encryption.go lines 143-345): read and validate the
Encrypt dictionary (Filter must be Standard; V in 1/2/4; R in 2..4; O, U,
P, ID[0] required; Length defaulted to 40 bits and clamped to 5..16 bytes),
derive the file key (Algorithm 2), validate the password (Algorithm 4 for
R=2, Algorithm 5 for R ≥ 3 comparing the first 16 bytes of U), then build
the default RC4 filters and, for R=4, the named CF filters and the
StmF/StrF/EEF overrides.  `md5` and `rc4` are the external collaborators
(`rc4 key data` is the XOR with the keystream). -/
def NewSecurityHandler (md5 : List Nat → List Nat)
    (rc4 : List Nat → List Nat → List Nat) (password : List Nat)
    (trailer : List (String × Object)) : Except SHErr SHState :=
  match getDictionary trailer "Encrypt" with
  | none => .error (.other "Encrypt dictionary not found")
  | some enc =>
    match getName enc "Filter" with
    | none => .error (.other "Encrypt dictionary missing required Filter field")
    | some filter =>
      if filter ≠ "Standard" then .error (.other "Unsupported encryption filter")
      else
        let v := (getInt enc "V").getD 0
        if v ≠ 1 ∧ v ≠ 2 ∧ v ≠ 4 then
          .error (.other "Unsupported encryption version")
        else
          match getInt enc "R" with
          | none => .error (.other "Encrypt dictionary missing required R field")
          | some r =>
            if r < 2 ∨ r > 4 then
              .error (.other "Unsupported encryption revision")
            else
              let length := encryptByteLength enc v
              match getBytes enc "O" with
              | none => .error (.other "Encrypt dictionary missing required O field")
              | some o =>
                match getBytes enc "U" with
                | none => .error (.other "Encrypt dictionary missing required U field")
                | some u =>
                  match getInt enc "P" with
                  | none => .error (.other "Encrypt dictionary missing required P field")
                  | some p =>
                    let pb := le32 p
                    let emd := (getBool enc "EncryptMetadata").getD true
                    match getArray trailer "ID" with
                    | none => .error (.other "Trailer dictionary missing required ID field")
                    | some ids =>
                      match arrGetBytes ids 0 with
                      | none => .error (.other "Trailer dictionary missing required ID[0] field")
                      | some idb =>
                        let key := computeEncryptionKey md5 r o pb idb emd password length
                        let ok :=
                          if r = 2 then algorithm4Passes rc4 key u
                          else algorithm5Passes md5 rc4 key idb u
                        if ¬ ok then .error .password
                        else
                          let baseFilters : List (String × CryptFilterModel) :=
                            [("Identity", .identity)]
                          let cf := (getDictionary enc "CF").getD []
                          let filters :=
                            if r = 4 then
                              cf.foldl (fun acc kv =>
                                match buildCryptFilter md5 r o pb idb emd password length kv.2 with
                                | some flt => acc ++ [(kv.1, flt)]
                                | none => acc) baseFilters
                            else baseFilters
                          let defRC4 : CryptFilterModel := .rc4Filter key
                          let pick (name : String) (deflt : CryptFilterModel) :
                              CryptFilterModel :=
                            match getName enc name with
                            | none => deflt
                            | some fn =>
                              match (filters.find? (fun q => q.1 = fn)).map Prod.snd with
                              | some flt => flt
                              | none => deflt
                          let stmF := if r = 4 then pick "StmF" defRC4 else defRC4
                          let strF := if r = 4 then pick "StrF" defRC4 else defRC4
                          let eefF := if r = 4 then pick "EEF" defRC4 else defRC4
                          .ok ⟨v, length, r, o, u, pb, emd, idb, key,
                            stmF, strF, eefF, filters⟩

/-- The security-handler setup step of Parser.Load (parser.go lines
123-141): when the trailer has an Encrypt entry, a Reference value has the
IsEncrypted flag of its xref entry cleared, and SetPassword is attempted;
ANY NewSecurityHandler failure makes SetPassword return false, upon which
Load returns ErrorPassword. -/
def parserLoadSecurity (md5 : List Nat → List Nat)
    (rc4 : List Nat → List Nat → List Nat) (xref : XrefMap)
    (trailer : List (String × Object)) (password : List Nat) :
    XrefMap × Option SHErr :=
  match dictLookup trailer "Encrypt" with
  | none => (xref, none)
  | some encObj =>
    let xref2 :=
      match encObj with
      | .ref n _ =>
        match xrefLookup xref n with
        | some e =>
          xrefInsert xref n
            ⟨e.offset, e.generation, e.xtype, false, e.isEmbeddedFile⟩
        | none => xref
      | _ => xref
    match NewSecurityHandler md5 rc4 password trailer with
    | .ok _ => (xref2, none)
    | .error _ => (xref2, some .password)

/-!
Helper lemmas on the xref map and the merge folds.
-/

theorem xrefInsert_self (m : XrefMap) (k : Int) (e : XrefEntry) :
    xrefInsert m k e k = some e := by
  simp [xrefInsert]

theorem xrefInsert_ne (m : XrefMap) (k : Int) (e : XrefEntry) (k2 : Int)
    (h : k2 ≠ k) : xrefInsert m k e k2 = m k2 := by
  simp [xrefInsert, h]

theorem mergeXrefPdf_at (m : XrefMap) (num : Int) (e : XrefEntry)
    (old : XrefEntry) (h : m num = some old) :
    mergeXrefPdf m num e num = some old ∨
      (mergeXrefPdf m num e num = some e ∧ e.generation > old.generation) := by
  unfold mergeXrefPdf
  rw [show xrefLookup m num = some old from h]
  dsimp only
  by_cases hg : e.generation > old.generation
  · right
    exact ⟨by rw [if_pos hg]; exact xrefInsert_self m num e, hg⟩
  · left
    rw [if_neg hg]
    exact h

theorem mergeXrefPdf_other (m : XrefMap) (num : Int) (e : XrefEntry)
    (k : Int) (h : k ≠ num) : mergeXrefPdf m num e k = m k := by
  unfold mergeXrefPdf
  cases hm : xrefLookup m num with
  | none => exact xrefInsert_ne m num e k h
  | some old =>
    dsimp only
    by_cases hg : e.generation > old.generation
    · rw [if_pos hg]; exact xrefInsert_ne m num e k h
    · rw [if_neg hg]

theorem pdfApplyEntries_generation_rule_aux :
    ∀ (ents : List (Int × XrefEntry)) (m : XrefMap) (num : Int)
      (old : XrefEntry), m num = some old →
      pdfApplyEntries m ents num = some old ∨
        ∃ e2, pdfApplyEntries m ents num = some e2 ∧
          e2.generation > old.generation
  | [], m, num, old, h => by
    left
    simpa [pdfApplyEntries] using h
  | p :: ps, m, num, old, h => by
    have hfold : pdfApplyEntries m (p :: ps) =
        pdfApplyEntries (mergeXrefPdf m p.1 p.2) ps := by
      simp [pdfApplyEntries]
    rw [hfold]
    by_cases hk : p.1 = num
    · subst hk
      rcases mergeXrefPdf_at m p.1 p.2 old h with h1 | ⟨h1, hg⟩
      · exact pdfApplyEntries_generation_rule_aux ps _ p.1 old h1
      · rcases pdfApplyEntries_generation_rule_aux ps _ p.1 p.2 h1 with h2 | ⟨e3, h2, hg3⟩
        · exact Or.inr ⟨p.2, h2, hg⟩
        · exact Or.inr ⟨e3, h2, lt_trans hg hg3⟩
    · have h1 : mergeXrefPdf m p.1 p.2 num = some old := by
        rw [mergeXrefPdf_other m p.1 p.2 num (fun hc => hk hc.symm)]
        exact h
      exact pdfApplyEntries_generation_rule_aux ps _ num old h1

/-- Modelled from the claim C1 wording for the amended Parser part: the
entry surviving for an object number in a sequence of Go map assignments is
the LAST assignment to that number. -/
def lastAssoc : List (Int × XrefEntry) → Int → Option XrefEntry
  | [], _ => none
  | p :: ps, k =>
    match lastAssoc ps k with
    | some e => some e
    | none => if p.1 = k then some p.2 else none

theorem parserApplyEntries_unbound :
    ∀ (ents : List (Int × XrefEntry)) (m : XrefMap) (k : Int),
      lastAssoc ents k = none → parserApplyEntries m ents k = m k
  | [], m, k, _ => by simp [parserApplyEntries]
  | p :: ps, m, k, h => by
    have hps : lastAssoc ps k = none := by
      unfold lastAssoc at h
      match hl : lastAssoc ps k with
      | none => rfl
      | some e => rw [hl] at h; simp at h
    have hpk : p.1 ≠ k := by
      unfold lastAssoc at h
      rw [hps] at h
      intro hc
      rw [if_pos hc] at h
      simp at h
    have hfold : parserApplyEntries m (p :: ps) =
        parserApplyEntries (xrefInsert m p.1 p.2) ps := by
      simp [parserApplyEntries]
    rw [hfold, parserApplyEntries_unbound ps _ k hps,
      xrefInsert_ne m p.1 p.2 k (fun hc => hpk hc.symm)]

theorem parserApplyEntries_last_wins :
    ∀ (ents : List (Int × XrefEntry)) (m : XrefMap) (k : Int) (e : XrefEntry),
      lastAssoc ents k = some e → parserApplyEntries m ents k = some e
  | p :: ps, m, k, e, h => by
    have hfold : parserApplyEntries m (p :: ps) =
        parserApplyEntries (xrefInsert m p.1 p.2) ps := by
      simp [parserApplyEntries]
    rw [hfold]
    match hl : lastAssoc ps k with
    | some e2 =>
      have he : e2 = e := by
        unfold lastAssoc at h
        rw [hl] at h
        exact Option.some.inj h
      rw [← he]
      exact parserApplyEntries_last_wins ps _ k e2 hl
    | none =>
      have hpk : p.1 = k ∧ p.2 = e := by
        unfold lastAssoc at h
        rw [hl] at h
        by_cases hc : p.1 = k
        · rw [if_pos hc] at h
          exact ⟨hc, Option.some.inj h⟩
        · rw [if_neg hc] at h
          simp at h
      rw [parserApplyEntries_unbound ps _ k hl, hpk.1, xrefInsert_self]
      rw [hpk.2]

/-!
Claim theorems.
-/

/-- C1 counterexample: the Parser variant does not implement the
strictly-greater-generation rule.  Starting from an xref already holding
object 1 at generation 5, loading an xref-stream subsection (widths 1/1/1,
Index pair (1,1), record bytes 01 0A 00 = in-use, offset 10, generation 0)
through Parser.LoadXrefStream replaces it with the generation-0 entry:
the surviving entry does not have the strictly highest generation. -/
theorem claim_C1_counterexample :
    parserXrefStreamSubsections 1 1 1
        (xrefInsert xrefEmpty 1 (NewXrefEntry 100 5 XrefTypeIndirectObject))
        [(1, 1)] [1, 10, 0] 1 =
      some (NewXrefEntry 10 0 1) ∧
      (NewXrefEntry 10 0 1).generation <
        (NewXrefEntry 100 5 XrefTypeIndirectObject).generation := by
  refine ⟨by decide, by decide⟩

/-- C1 amended: in the Pdf variant (readXrefTable and readXrefStream, whose
entry merges go through mergeXrefPdf) a later-loaded entry replaces an
earlier one only if its generation is strictly greater - any surviving
entry for a number already in the map is the old entry or one with strictly
greater generation.  In the Parser variant (LoadXrefTable line 333,
LoadXrefStream line 420) assignment is unconditional, so the entry
surviving is the last one assigned, whatever its generation. -/
theorem claim_C1_xref_precedence :
    (∀ (ents : List (Int × XrefEntry)) (m : XrefMap) (num : Int)
        (old : XrefEntry), m num = some old →
        pdfApplyEntries m ents num = some old ∨
          ∃ e2, pdfApplyEntries m ents num = some e2 ∧
            e2.generation > old.generation) ∧
      (∀ (ents : List (Int × XrefEntry)) (m : XrefMap) (k : Int)
        (e : XrefEntry), lastAssoc ents k = some e →
        parserApplyEntries m ents k = some e) :=
  ⟨pdfApplyEntries_generation_rule_aux, parserApplyEntries_last_wins⟩

/-- Witness for C1 at concrete inputs: the Pdf merge keeps the generation-5
entry against a later generation-0 entry (left disjunct), and the Parser
merge lets the generation-0 entry win. -/
theorem claim_C1_witness :
    ((xrefInsert xrefEmpty 1 (NewXrefEntry 100 5 1) : XrefMap) 1 =
        some (NewXrefEntry 100 5 1) ∧
      (pdfApplyEntries (xrefInsert xrefEmpty 1 (NewXrefEntry 100 5 1))
          [(1, NewXrefEntry 10 0 1)] 1 = some (NewXrefEntry 100 5 1) ∨
        ∃ e2, pdfApplyEntries (xrefInsert xrefEmpty 1 (NewXrefEntry 100 5 1))
            [(1, NewXrefEntry 10 0 1)] 1 = some e2 ∧
          e2.generation > (NewXrefEntry 100 5 1).generation)) ∧
      (lastAssoc [(1, NewXrefEntry 10 0 1)] 1 = some (NewXrefEntry 10 0 1) ∧
        parserApplyEntries (xrefInsert xrefEmpty 1 (NewXrefEntry 100 5 1))
          [(1, NewXrefEntry 10 0 1)] 1 = some (NewXrefEntry 10 0 1)) :=
  ⟨⟨by decide,
      claim_C1_xref_precedence.1 [(1, NewXrefEntry 10 0 1)]
        (xrefInsert xrefEmpty 1 (NewXrefEntry 100 5 1)) 1
        (NewXrefEntry 100 5 1) (by decide)⟩,
    ⟨by decide,
      claim_C1_xref_precedence.2 [(1, NewXrefEntry 10 0 1)]
        (xrefInsert xrefEmpty 1 (NewXrefEntry 100 5 1)) 1
        (NewXrefEntry 10 0 1) (by decide)⟩⟩

theorem firstMarkerSplit_none_of_short : ∀ xs : List Nat, xs.length < 9 →
    firstMarkerSplit xs = none
  | [], _ => rfl
  | x :: xs, h => by
    rw [firstMarkerSplit]
    have hne : (x :: xs).take 9 ≠ endstreamMarker := by
      intro hc
      have hlen := congrArg List.length hc
      rw [List.take_of_length_le (by omega)] at hlen
      have : endstreamMarker.length = 9 := by decide
      omega
    rw [if_neg hne, firstMarkerSplit_none_of_short xs (by simp at h ⊢; omega)]

theorem windowScan_spec_aux : ∀ (n : Nat) (rest : List Nat), rest.length ≤ n →
    ∀ acc : List Nat,
      windowScan (rest.take 9) acc (rest.drop 9) =
        (match firstMarkerSplit rest with
          | some pr => (true, acc ++ pr.1)
          | none => (false, acc ++ rest))
  | n, rest, hn, acc => by
    by_cases hm : rest.take 9 = endstreamMarker
    · rw [windowScan.eq_def, if_pos hm]
      match rest with
      | [] => simp [List.take] at hm; exact absurd hm (by decide)
      | x :: xs =>
        rw [firstMarkerSplit, if_pos hm]
        simp
    · match n, rest with
      | _, [] =>
        rw [windowScan.eq_def]
        simp [firstMarkerSplit, endstreamMarker, strBytes]
      | 0, w :: rest2 => simp at hn
      | n + 1, w :: rest2 =>
        rw [firstMarkerSplit, if_neg hm]
        by_cases hlen : (w :: rest2).length ≤ 9
        · have hdrop : (w :: rest2).drop 9 = [] := List.drop_eq_nil_of_le hlen
          have htake : (w :: rest2).take 9 = w :: rest2 :=
            List.take_of_length_le hlen
          rw [htake, hdrop, windowScan.eq_def, if_neg (htake ▸ hm)]
          have hshort : firstMarkerSplit rest2 = none :=
            firstMarkerSplit_none_of_short rest2 (by simp at hlen ⊢; omega)
          rw [hshort]
        · have h9 : 8 < rest2.length := by simp at hlen; omega
          have htake : (w :: rest2).take 9 = w :: rest2.take 8 :=
            List.take_succ_cons
          have hdrop : (w :: rest2).drop 9 = rest2[8] :: rest2.drop 9 := by
            rw [List.drop_succ_cons, List.drop_eq_getElem_cons h9]
          rw [htake, hdrop, windowScan.eq_def, if_neg (htake ▸ hm)]
          dsimp only
          have hwin : rest2.take 8 ++ [rest2[8]] = rest2.take 9 := by
            conv_rhs => rw [List.take_succ]
            rw [List.getElem?_eq_getElem h9]
            rfl
          have hih := windowScan_spec_aux n rest2 (by simp at hn; omega)
            (acc ++ [w])
          rw [hwin, hih]
          cases hfm : firstMarkerSplit rest2 <;> simp [hfm]

theorem consumeComment_eq_spec : ∀ xs : List Nat,
    consumeComment xs = specCommentEnd xs
  | [] => rfl
  | b :: bs => by
    simp only [consumeComment, specCommentEnd]
    by_cases h10 : b = 10
    · simp [h10]
    · by_cases h13 : b = 13
      · simp [h10, h13]
      · simp [h10, h13, consumeComment_eq_spec bs]

theorem parserConsumeWhitespace_eq_spec_aux :
    ∀ (n : Nat) (xs : List Nat), xs.length ≤ n →
      parserConsumeWhitespace xs = specSkipWhitespace xs
  | _, [], _ => by simp [parserConsumeWhitespace, specSkipWhitespace]
  | 0, b :: bs, h => by simp at h
  | n + 1, b :: bs, h => by
    rw [parserConsumeWhitespace, specSkipWhitespace]
    by_cases h37 : b = 37
    · have hws : ¬ isWhitespaceByte b = true := by rw [h37]; decide
      rw [if_pos h37, if_neg hws, if_pos h37, consumeComment_eq_spec bs]
      exact parserConsumeWhitespace_eq_spec_aux n (specCommentEnd bs)
        (le_trans (specCommentEnd_length_le bs) (by simp at h; omega))
    · by_cases hws : isWhitespaceByte b = true
      · rw [if_neg h37, if_pos hws, if_pos hws]
        exact parserConsumeWhitespace_eq_spec_aux n bs (by simp at h; omega)
      · rw [if_neg h37, if_neg hws, if_neg hws, if_neg h37]

/-- C8 counterexample: the claim fails on two of the three cited
whitespace skippers.  On `%c\rA` the comment should end at the lone `\r`
and the reader should stop at `A` (as `specSkipWhitespace`, written from
the claim, does) - but Pdf.ConsumeWhitespace consumes comments with
`ReadBytes('\n')` and, finding no line feed, consumes the whole input.  On
`%a%b`, Tokenizer.SkipWhitespace consumes the comment through the next `%`
byte and returns the `b` as a token byte, where the claim's comment runs to
the end of the input. -/
theorem claim_C8_counterexample :
    pdfConsumeWhitespace (strBytes "%c\rA") = [] ∧
      specSkipWhitespace (strBytes "%c\rA") = strBytes "A" ∧
      tokenizerSkipWhitespace (strBytes "%a%b") = some (98, []) ∧
      specSkipWhitespace (strBytes "%a%b") = [] ∧
      ([] : List Nat) ≠ strBytes "A" := by
  refine ⟨?_, ?_, ?_, ?_, by decide⟩
  · simp [strBytes, pdfConsumeWhitespace, dropThroughLF, isWhitespaceByte]
  · simp [strBytes, specSkipWhitespace, specCommentEnd, isWhitespaceByte]
  · simp [strBytes, tokenizerSkipWhitespace, dropThroughPct, isWhitespaceByte]
  · simp [strBytes, specSkipWhitespace, specCommentEnd, isWhitespaceByte]

/-- C8 amended: the claimed behaviour - skip any mix of whitespace and
comments, where a comment runs from `%` to the first `\n`, `\r`, or
`\r\n`, ending at the first byte that is neither - holds for
Parser.consumeWhitespace, proved against `specSkipWhitespace` written from
the claim's words.  Pdf.ConsumeWhitespace instead consumes a comment with
`ReadBytes('\n')` - through the next line feed only, a lone `\r` does not
terminate it - and Tokenizer.SkipWhitespace consumes a comment with
`ReadBytes('%')` - through the next `%` byte, failing at end of input. -/
theorem claim_C8_whitespace_and_comments :
    (∀ xs : List Nat, parserConsumeWhitespace xs = specSkipWhitespace xs) ∧
      (∀ xs : List Nat,
        pdfConsumeWhitespace (37 :: xs) = pdfConsumeWhitespace (dropThroughLF xs)) ∧
      (∀ xs : List Nat,
        tokenizerSkipWhitespace (37 :: xs) =
          match dropThroughPct xs with
          | none => none
          | some r => tokenizerSkipWhitespace r) := by
  refine ⟨fun xs => parserConsumeWhitespace_eq_spec_aux xs.length xs le_rfl, ?_, ?_⟩
  · intro xs
    rw [pdfConsumeWhitespace]
    simp
  · intro xs
    rw [tokenizerSkipWhitespace]
    simp only [show isWhitespaceByte 37 = false by decide, Bool.false_eq_true,
      if_false, if_pos rfl]
    cases hd : dropThroughPct xs <;> simp

/-- Decimal value of a digit string, for stating claim C3. -/
def digitsVal (ds : List Nat) : Nat :=
  ds.foldl (fun a b => 10 * a + (b - 48)) 0

/-- Modelled from the claim C3 wording: the input after the integer token
either ends or continues with a byte that neither extends the digits nor
starts a fractional part. -/
def integerTokenBoundary (rest : List Nat) : Prop :=
  rest = [] ∨ ∃ c cs, rest = c :: cs ∧ isDigitByte c = false ∧ c ≠ 46

theorem numberIntLoop_digits : ∀ (ds rest : List Nat) (acc : Rat),
    (∀ b ∈ ds, isDigitByte b = true) → integerTokenBoundary rest →
    numberIntLoop acc (ds ++ rest) =
      (ds.foldl (fun a b => a * 10 + ((b - 48 : Nat) : Rat)) acc, false, rest)
  | [], rest, acc, _, hb => by
    rcases hb with rfl | ⟨c, cs, rfl, hcd, hc46⟩
    · simp [numberIntLoop]
    · simp only [List.nil_append, numberIntLoop, List.foldl_nil]
      rw [if_neg (by simp [hcd]), if_neg hc46]
  | d :: ds, rest, acc, hd, hb => by
    simp only [List.cons_append, numberIntLoop, List.foldl_cons]
    rw [if_pos (hd d (by simp))]
    exact numberIntLoop_digits ds rest _ (fun b hbm => hd b (by simp [hbm])) hb

theorem foldl_digits_cast : ∀ (ds : List Nat) (acc : Nat),
    (∀ b ∈ ds, isDigitByte b = true) →
    ds.foldl (fun (a : Rat) b => a * 10 + ((b - 48 : Nat) : Rat)) (acc : Rat) =
      ((ds.foldl (fun a b => 10 * a + (b - 48)) acc : Nat) : Rat)
  | [], acc, _ => by simp
  | d :: ds, acc, hd => by
    simp only [List.foldl_cons]
    have hstep : (acc : Rat) * 10 + ((d - 48 : Nat) : Rat) =
        ((10 * acc + (d - 48) : Nat) : Rat) := by
      push_cast
      ring
    rw [hstep]
    exact foldl_digits_cast ds _ (fun b hbm => hd b (by simp [hbm]))

theorem readNumberCore_digits (d : Nat) (ds rest : List Nat)
    (hd : isDigitByte d = true) (hds : ∀ b ∈ ds, isDigitByte b = true)
    (hb : integerTokenBoundary rest) :
    readNumberCore (d :: (ds ++ rest)) =
      ⟨(digitsVal (d :: ds) : Rat), none, rest⟩ := by
  have hd2 : 48 ≤ d ∧ d ≤ 57 := by simpa [isDigitByte] using hd
  rw [readNumberCore]
  rw [if_neg (by omega : ¬ d = 45), if_pos hd]
  rw [numberIntLoop_digits ds rest _ hds hb]
  dsimp only
  have hv : (ds.foldl (fun (a : Rat) b => a * 10 + ((b - 48 : Nat) : Rat))
      ((d - 48 : Nat) : Rat)) = ((digitsVal (d :: ds) : Nat) : Rat) := by
    rw [foldl_digits_cast ds (d - 48) hds]
    simp [digitsVal]
  rw [hv]
  simp

theorem goInt_natCast (n : Nat) : goInt (n : Rat) = n := by
  unfold goInt
  rw [Rat.num_natCast, Rat.den_natCast]
  simp [Int.tdiv]

theorem digit_byte_facts (b : Nat) (hd : isDigitByte b = true) :
    b ≠ 37 ∧ isWhitespaceByte b = false := by
  simp only [isDigitByte, Bool.and_eq_true, decide_eq_true_eq] at hd
  refine ⟨by omega, ?_⟩
  simp only [isWhitespaceByte]
  simp only [Bool.or_eq_false_iff, decide_eq_false_iff_not]
  omega

theorem parserConsumeWhitespace_fixed (b : Nat) (bs : List Nat) (h37 : b ≠ 37)
    (hws : isWhitespaceByte b = false) :
    parserConsumeWhitespace (b :: bs) = b :: bs := by
  rw [parserConsumeWhitespace, if_neg h37, if_neg (by simp [hws])]

theorem pdfConsumeWhitespace_fixed (b : Nat) (bs : List Nat) (h37 : b ≠ 37)
    (hws : isWhitespaceByte b = false) :
    pdfConsumeWhitespace (b :: bs) = b :: bs := by
  rw [pdfConsumeWhitespace, if_neg h37, if_neg (by simp [hws])]

theorem parserProbe_aux (dec : List Nat → List Nat) (fuel : Nat)
    (xs ds rest : List Nat)
    (hpcw : parserConsumeWhitespace xs = ds ++ rest)
    (hne : ds ≠ []) (hds : ∀ b ∈ ds, isDigitByte b = true)
    (hb : integerTokenBoundary rest) :
    parserReadNumber xs = ⟨(digitsVal ds : Rat), none, rest⟩ ∧
      (∀ (g : Int) (d2 d3 : List Nat),
        parserReadInt64 rest = ⟨g, none, d2⟩ →
        parserReadKeyword d2 = (Keyword.R, d3) →
        parserReadObject dec (fuel + 1) xs =
          ⟨Object.ref (digitsVal ds) g, none, d3⟩) ∧
      ((parserReadInt64 rest).err.isSome ∨
          ((parserReadInt64 rest).err = none ∧
            (parserReadKeyword (parserReadInt64 rest).rest).1 ≠ Keyword.R) →
        parserReadObject dec (fuel + 1) xs =
          ⟨Object.number (digitsVal ds), none, rest⟩) := by
  rcases List.exists_cons_of_ne_nil hne with ⟨d, dtl, rfl⟩
  have hd := hds d (by simp)
  have hdtl : ∀ b ∈ dtl, isDigitByte b = true := fun b hbm => hds b (by simp [hbm])
  have hdf := digit_byte_facts d hd
  have hcore := readNumberCore_digits d dtl rest hd hdtl hb
  have hd2 : 48 ≤ d ∧ d ≤ 57 := by simpa [isDigitByte] using hd
  have hys : parserConsumeWhitespace xs = d :: (dtl ++ rest) := by
    rw [hpcw]
    simp
  have hnum : parserReadNumber xs = ⟨(digitsVal (d :: dtl) : Rat), none, rest⟩ := by
    unfold parserReadNumber
    rw [hys]
    exact hcore
  have hnum2 : parserReadNumber (d :: (dtl ++ rest)) =
      ⟨(digitsVal (d :: dtl) : Rat), none, rest⟩ := by
    unfold parserReadNumber
    rw [parserConsumeWhitespace_fixed d _ hdf.1 hdf.2]
    exact hcore
  have hobj : parserReadObject dec (fuel + 1) xs =
      (match (parserReadInt64 rest).err with
        | some _ =>
          (⟨Object.number ((digitsVal (d :: dtl) : Nat) : Rat), none, rest⟩ :
            PRes Object)
        | none =>
          if (parserReadKeyword (parserReadInt64 rest).rest).1 = Keyword.R then
            ⟨Object.ref (goInt ((digitsVal (d :: dtl) : Nat) : Rat))
              (parserReadInt64 rest).val, none,
              (parserReadKeyword (parserReadInt64 rest).rest).2⟩
          else
            ⟨Object.number ((digitsVal (d :: dtl) : Nat) : Rat), none, rest⟩) := by
    rw [parserReadObject]
    rw [hys]
    dsimp only
    rw [if_neg (by omega : ¬ d = 47), if_neg (by omega : ¬ d = 91),
      if_neg (by omega : ¬ d = 93), if_neg (by omega : ¬ d = 40),
      if_neg (by simp [show ¬ d = 60 by omega]),
      if_neg (by simp [show ¬ d = 62 by omega]),
      if_neg (by omega : ¬ d = 60), if_pos (by simp [hd])]
    rw [hnum2]
  refine ⟨hnum, ?_, ?_⟩
  · intro g d2 d3 hint hkw
    rw [hobj, hint]
    dsimp only
    rw [hkw]
    dsimp only
    rw [if_pos rfl, goInt_natCast]
  · intro hcase
    rcases hcase with hsome | ⟨hnone, hkne⟩
    · rcases Option.isSome_iff_exists.mp hsome with ⟨e, he⟩
      rw [hobj, he]
    · rw [hobj, hnone]
      dsimp only
      rw [if_neg hkne]

theorem pdfProbe_aux (fuel : Nat) (xs ds rest : List Nat)
    (hpcw : pdfConsumeWhitespace xs = ds ++ rest)
    (hne : ds ≠ []) (hds : ∀ b ∈ ds, isDigitByte b = true)
    (hb : integerTokenBoundary rest) :
    pdfReadNumber xs = ⟨(digitsVal ds : Rat), none, rest⟩ ∧
      (∀ (g : Int) (d2 d3 : List Nat),
        pdfReadInt64 rest = ⟨g, none, d2⟩ →
        pdfReadKeyword d2 = (Keyword.R, d3) →
        pdfReadObject (fuel + 1) xs = ⟨Object.ref (digitsVal ds) g, none, d3⟩) ∧
      ((pdfReadInt64 rest).err.isSome ∨
          ((pdfReadInt64 rest).err = none ∧
            (pdfReadKeyword (pdfReadInt64 rest).rest).1 ≠ Keyword.R) →
        pdfReadObject (fuel + 1) xs =
          ⟨Object.number (digitsVal ds), none, rest⟩) := by
  rcases List.exists_cons_of_ne_nil hne with ⟨d, dtl, rfl⟩
  have hd := hds d (by simp)
  have hdtl : ∀ b ∈ dtl, isDigitByte b = true := fun b hbm => hds b (by simp [hbm])
  have hdf := digit_byte_facts d hd
  have hcore := readNumberCore_digits d dtl rest hd hdtl hb
  have hd2 : 48 ≤ d ∧ d ≤ 57 := by simpa [isDigitByte] using hd
  have hys : pdfConsumeWhitespace xs = d :: (dtl ++ rest) := by
    rw [hpcw]
    simp
  have hnum : pdfReadNumber xs = ⟨(digitsVal (d :: dtl) : Rat), none, rest⟩ := by
    unfold pdfReadNumber
    rw [hys]
    exact hcore
  have hnum2 : pdfReadNumber (d :: (dtl ++ rest)) =
      ⟨(digitsVal (d :: dtl) : Rat), none, rest⟩ := by
    unfold pdfReadNumber
    rw [pdfConsumeWhitespace_fixed d _ hdf.1 hdf.2]
    exact hcore
  have hobj : pdfReadObject (fuel + 1) xs =
      (match (pdfReadInt64 rest).err with
        | some _ =>
          (⟨Object.number ((digitsVal (d :: dtl) : Nat) : Rat), none, rest⟩ :
            PRes Object)
        | none =>
          if (pdfReadKeyword (pdfReadInt64 rest).rest).1 = Keyword.R then
            ⟨Object.ref (goInt ((digitsVal (d :: dtl) : Nat) : Rat))
              (pdfReadInt64 rest).val, none,
              (pdfReadKeyword (pdfReadInt64 rest).rest).2⟩
          else
            ⟨Object.number ((digitsVal (d :: dtl) : Nat) : Rat), none, rest⟩) := by
    rw [pdfReadObject]
    rw [hys]
    dsimp only
    rw [if_neg (by omega : ¬ d = 47), if_neg (by omega : ¬ d = 91),
      if_neg (by omega : ¬ d = 93), if_neg (by omega : ¬ d = 40),
      if_neg (by simp [show ¬ d = 60 by omega]),
      if_neg (by simp [show ¬ d = 62 by omega]),
      if_neg (by omega : ¬ d = 60),
      if_neg (by simp; omega),
      if_pos (by simp [hd])]
    rw [hnum2]
  refine ⟨hnum, ?_, ?_⟩
  · intro g d2 d3 hint hkw
    rw [hobj, hint]
    dsimp only
    rw [hkw]
    dsimp only
    rw [if_pos rfl, goInt_natCast]
  · intro hcase
    rcases hcase with hsome | ⟨hnone, hkne⟩
    · rcases Option.isSome_iff_exists.mp hsome with ⟨e, he⟩
      rw [hobj, he]
    · rw [hobj, hnone]
      dsimp only
      rw [if_neg hkne]

/-- C3: the number-vs-reference probe of both read_object variants.  When
the input after whitespace starts with a non-negative integer token (digit
bytes `ds` followed by a boundary byte), read_object parses it via
readNumber; if the code's own integer reader then succeeds with G and the
keyword reader returns exactly the `R` keyword, the result is
Reference(N, G) with the reader placed after the `R`; for any other
continuation - no integer G, or a keyword other than `R` - the result is
the Number N and the reader is restored to the position immediately after
the number token (the suffix `rest`), which is what the saved-offset seek
of the source achieves. -/
theorem claim_C3_number_reference_probe :
    (∀ (dec : List Nat → List Nat) (fuel : Nat) (xs ds rest : List Nat),
      parserConsumeWhitespace xs = ds ++ rest → ds ≠ [] →
      (∀ b ∈ ds, isDigitByte b = true) → integerTokenBoundary rest →
      parserReadNumber xs = ⟨(digitsVal ds : Rat), none, rest⟩ ∧
        (∀ (g : Int) (d2 d3 : List Nat),
          parserReadInt64 rest = ⟨g, none, d2⟩ →
          parserReadKeyword d2 = (Keyword.R, d3) →
          parserReadObject dec (fuel + 1) xs =
            ⟨Object.ref (digitsVal ds) g, none, d3⟩) ∧
        ((parserReadInt64 rest).err.isSome ∨
            ((parserReadInt64 rest).err = none ∧
              (parserReadKeyword (parserReadInt64 rest).rest).1 ≠ Keyword.R) →
          parserReadObject dec (fuel + 1) xs =
            ⟨Object.number (digitsVal ds), none, rest⟩)) ∧
    (∀ (fuel : Nat) (xs ds rest : List Nat),
      pdfConsumeWhitespace xs = ds ++ rest → ds ≠ [] →
      (∀ b ∈ ds, isDigitByte b = true) → integerTokenBoundary rest →
      pdfReadNumber xs = ⟨(digitsVal ds : Rat), none, rest⟩ ∧
        (∀ (g : Int) (d2 d3 : List Nat),
          pdfReadInt64 rest = ⟨g, none, d2⟩ →
          pdfReadKeyword d2 = (Keyword.R, d3) →
          pdfReadObject (fuel + 1) xs =
            ⟨Object.ref (digitsVal ds) g, none, d3⟩) ∧
        ((pdfReadInt64 rest).err.isSome ∨
            ((pdfReadInt64 rest).err = none ∧
              (pdfReadKeyword (pdfReadInt64 rest).rest).1 ≠ Keyword.R) →
          pdfReadObject (fuel + 1) xs =
            ⟨Object.number (digitsVal ds), none, rest⟩)) :=
  ⟨parserProbe_aux, pdfProbe_aux⟩

/-- Witness for C3 at concrete inputs: `12 0 R` yields Reference(12, 0)
with the reader after the `R`, and `12 q` yields Number 12 with the reader
immediately after the token `12`, in both variants. -/
theorem claim_C3_witness :
    parserReadObject (fun bs => bs) 1 (strBytes "12 0 R") =
        ⟨Object.ref 12 0, none, []⟩ ∧
      parserReadObject (fun bs => bs) 1 (strBytes "12 q") =
        ⟨Object.number 12, none, strBytes " q"⟩ ∧
      pdfReadObject 1 (strBytes "12 0 R") = ⟨Object.ref 12 0, none, []⟩ ∧
      pdfReadObject 1 (strBytes "12 q") =
        ⟨Object.number 12, none, strBytes " q"⟩ := by
  have hsp : ∀ t : List Nat,
      parserConsumeWhitespace (32 :: t) = parserConsumeWhitespace t := by
    intro t
    rw [parserConsumeWhitespace]
    norm_num [isWhitespaceByte]
  have hsq : ∀ t : List Nat,
      pdfConsumeWhitespace (32 :: t) = pdfConsumeWhitespace t := by
    intro t
    rw [pdfConsumeWhitespace]
    norm_num [isWhitespaceByte]
  have hA1 : parserConsumeWhitespace (strBytes "12 0 R") =
      [49, 50] ++ strBytes " 0 R" := by
    rw [show strBytes "12 0 R" = 49 :: strBytes "2 0 R" by decide,
      parserConsumeWhitespace_fixed 49 _ (by decide) (by decide)]
    decide
  have hA2 : parserReadInt64 (strBytes " 0 R") = ⟨0, none, strBytes " R"⟩ := by
    unfold parserReadInt64
    rw [show strBytes " 0 R" = 32 :: strBytes "0 R" by decide, hsp,
      show strBytes "0 R" = 48 :: strBytes " R" by decide,
      parserConsumeWhitespace_fixed 48 _ (by decide) (by decide)]
    decide
  have hA3 : parserReadKeyword (strBytes " R") = (Keyword.R, []) := by
    unfold parserReadKeyword
    rw [show strBytes " R" = 32 :: strBytes "R" by decide, hsp,
      show strBytes "R" = 82 :: ([] : List Nat) by decide,
      parserConsumeWhitespace_fixed 82 _ (by decide) (by decide)]
    decide
  have hB1 : parserConsumeWhitespace (strBytes "12 q") =
      [49, 50] ++ strBytes " q" := by
    rw [show strBytes "12 q" = 49 :: strBytes "2 q" by decide,
      parserConsumeWhitespace_fixed 49 _ (by decide) (by decide)]
    decide
  have hB2 : parserReadInt64 (strBytes " q") =
      ⟨0, some (.expected "Expected int"), strBytes "q"⟩ := by
    unfold parserReadInt64
    rw [show strBytes " q" = 32 :: strBytes "q" by decide, hsp,
      show strBytes "q" = 113 :: ([] : List Nat) by decide,
      parserConsumeWhitespace_fixed 113 _ (by decide) (by decide)]
    decide
  have hC1 : pdfConsumeWhitespace (strBytes "12 0 R") =
      [49, 50] ++ strBytes " 0 R" := by
    rw [show strBytes "12 0 R" = 49 :: strBytes "2 0 R" by decide,
      pdfConsumeWhitespace_fixed 49 _ (by decide) (by decide)]
    decide
  have hC2 : pdfReadInt64 (strBytes " 0 R") = ⟨0, none, strBytes " R"⟩ := by
    unfold pdfReadInt64
    rw [show strBytes " 0 R" = 32 :: strBytes "0 R" by decide, hsq,
      show strBytes "0 R" = 48 :: strBytes " R" by decide,
      pdfConsumeWhitespace_fixed 48 _ (by decide) (by decide)]
    decide
  have hC3 : pdfReadKeyword (strBytes " R") = (Keyword.R, []) := by
    unfold pdfReadKeyword
    rw [show strBytes " R" = 32 :: strBytes "R" by decide, hsq,
      show strBytes "R" = 82 :: ([] : List Nat) by decide,
      pdfConsumeWhitespace_fixed 82 _ (by decide) (by decide)]
    decide
  have hD1 : pdfConsumeWhitespace (strBytes "12 q") =
      [49, 50] ++ strBytes " q" := by
    rw [show strBytes "12 q" = 49 :: strBytes "2 q" by decide,
      pdfConsumeWhitespace_fixed 49 _ (by decide) (by decide)]
    decide
  have hD2 : pdfReadInt64 (strBytes " q") =
      ⟨0, some (.expected "Expected int"), strBytes "q"⟩ := by
    unfold pdfReadInt64
    rw [show strBytes " q" = 32 :: strBytes "q" by decide, hsq,
      show strBytes "q" = 113 :: ([] : List Nat) by decide,
      pdfConsumeWhitespace_fixed 113 _ (by decide) (by decide)]
    decide
  have hbnd1 : integerTokenBoundary (strBytes " 0 R") :=
    Or.inr ⟨32, strBytes "0 R", by decide, by decide, by decide⟩
  have hbnd2 : integerTokenBoundary (strBytes " q") :=
    Or.inr ⟨32, strBytes "q", by decide, by decide, by decide⟩
  refine ⟨?_, ?_, ?_, ?_⟩
  · have h := (claim_C3_number_reference_probe.1 (fun bs => bs) 0
      (strBytes "12 0 R") [49, 50] (strBytes " 0 R") hA1 (by decide)
      (by decide) hbnd1).2.1 0 (strBytes " R") [] hA2 hA3
    simpa [digitsVal] using h
  · have h := (claim_C3_number_reference_probe.1 (fun bs => bs) 0
      (strBytes "12 q") [49, 50] (strBytes " q") hB1 (by decide)
      (by decide) hbnd2).2.2 (Or.inl (by rw [hB2]; rfl))
    simpa [digitsVal] using h
  · have h := (claim_C3_number_reference_probe.2 0
      (strBytes "12 0 R") [49, 50] (strBytes " 0 R") hC1 (by decide)
      (by decide) hbnd1).2.1 0 (strBytes " R") [] hC2 hC3
    simpa [digitsVal] using h
  · have h := (claim_C3_number_reference_probe.2 0
      (strBytes "12 q") [49, 50] (strBytes " q") hD1 (by decide)
      (by decide) hbnd2).2.2 (Or.inl (by rw [hD2]; rfl))
    simpa [digitsVal] using h

/-- C4: for a stream whose dictionary has no Filter entry, both ReadStream
variants return exactly the raw bytes between the end-of-line after the
`stream` keyword and the (first) `endstream` marker, with one trailing
`\n`, `\r\n`, or `\r` stripped: the source's rolling 9-byte window scan is
proved equal to splitting at the first marker occurrence
(`firstMarkerSplit`, written from the claim) followed by the trailing
end-of-line trim.  The Parser variant is taken with the Identity stream
decryptor and the empty filter list its caller builds when Filter is
absent; the decode collaborator is arbitrary since it is never invoked. -/
theorem claim_C4_stream_roundtrip
    (decode : String → List Nat → Option (List (String × Object)) → Option (List Nat))
    (d : List (String × Object)) (data rest payload after : List Nat)
    (hf : dictLookup d "Filter" = none)
    (hskip : skipStreamEOL data = some rest)
    (hsplit : firstMarkerSplit rest = some (payload, after)) :
    readStreamCore data = trimStreamEOL payload ∧
      pdfReadStream decode d data = trimStreamEOL payload ∧
      parserReadStream decode (fun bs => bs) [] [] data = trimStreamEOL payload := by
  have hcore : readStreamCore data = trimStreamEOL payload := by
    unfold readStreamCore
    rw [hskip]
    dsimp only
    have hws := windowScan_spec_aux rest.length rest le_rfl []
    rw [hsplit] at hws
    dsimp only at hws
    rw [hws]
    simp
  refine ⟨hcore, ?_, ?_⟩
  · unfold pdfReadStream
    have h1 : getArray d "Filter" = none := by unfold getArray; rw [hf]
    have h2 : getNameBytes d "Filter" = none := by unfold getNameBytes; rw [hf]
    rw [h1]
    dsimp only
    rw [h2]
    exact hcore
  · unfold parserReadStream
    simp only [applyFilterChain]
    exact hcore

/-- Witness for C4, the claim's own scenario: the stream payload `Hello`
followed immediately by `\rendstream` (after a `\n` end-of-line following
the `stream` keyword) yields exactly the five bytes `Hello` from both
variants. -/
theorem claim_C4_witness :
    dictLookup [] "Filter" = none ∧
      skipStreamEOL (strBytes "\nHello\rendstream") =
        some (strBytes "Hello\rendstream") ∧
      firstMarkerSplit (strBytes "Hello\rendstream") =
        some (strBytes "Hello\r", []) ∧
      readStreamCore (strBytes "\nHello\rendstream") =
        trimStreamEOL (strBytes "Hello\r") ∧
      pdfReadStream (fun _ b _ => some b) [] (strBytes "\nHello\rendstream") =
        trimStreamEOL (strBytes "Hello\r") ∧
      parserReadStream (fun _ b _ => some b) (fun bs => bs) [] []
          (strBytes "\nHello\rendstream") =
        trimStreamEOL (strBytes "Hello\r") ∧
      trimStreamEOL (strBytes "Hello\r") = strBytes "Hello" := by
  have h := claim_C4_stream_roundtrip (fun _ b _ => some b) []
    (strBytes "\nHello\rendstream") (strBytes "Hello\rendstream")
    (strBytes "Hello\r") [] rfl (by decide) (by decide)
  exact ⟨rfl, by decide, by decide, h.1, h.2.1, h.2.2, by decide⟩

/-- A concrete Encrypt dictionary with the unsupported version V=3. -/
def encV3 : List (String × Object) :=
  [("Filter", Object.name (strBytes "Standard")), ("V", Object.number 3)]

/-- A trailer carrying the V=3 Encrypt dictionary. -/
def trailerV3 : List (String × Object) := [("Encrypt", Object.dict encV3)]

/-- C5 counterexample: an Encrypt dictionary with unsupported version V=3
is rejected by NewSecurityHandler with the Unsupported-version error - but
the security step of Parser.Load (SetPassword discards which error
occurred) surfaces it as the Password error, so at the open level the
unsupported version IS reported as a Password error, contradicting the
claim's "rejected with an Unsupported error, not a Password error". -/
theorem claim_C5_counterexample :
    NewSecurityHandler (fun _ => []) (fun _ d => d) [] trailerV3 =
        .error (.other "Unsupported encryption version") ∧
      (parserLoadSecurity (fun _ => []) (fun _ d => d) xrefEmpty trailerV3 []).2 =
        some SHErr.password := by
  refine ⟨rfl, rfl⟩

/-- C5 amended: NewSecurityHandler distinguishes the error kinds - V
outside 1/2/4 gives the Unsupported-version error, R outside 2..4 the
Unsupported-revision error (both distinct from Password), and a failing
owner/user validation (Algorithm 4 for R=2, Algorithm 5 for R>=3, on the
Algorithm 2 file key) gives exactly the Password error; but Parser.Load
converts EVERY NewSecurityHandler failure, the Unsupported ones included,
into the Password error it returns. -/
theorem claim_C5_error_taxonomy :
    (∀ (md5 : List Nat → List Nat) (rc4 : List Nat → List Nat → List Nat)
        (password : List Nat) (trailer enc : List (String × Object)),
        getDictionary trailer "Encrypt" = some enc →
        getName enc "Filter" = some "Standard" →
        (getInt enc "V").getD 0 ≠ 1 → (getInt enc "V").getD 0 ≠ 2 →
        (getInt enc "V").getD 0 ≠ 4 →
        NewSecurityHandler md5 rc4 password trailer =
          .error (.other "Unsupported encryption version")) ∧
    (∀ (md5 : List Nat → List Nat) (rc4 : List Nat → List Nat → List Nat)
        (password : List Nat) (trailer enc : List (String × Object)) (r : Int),
        getDictionary trailer "Encrypt" = some enc →
        getName enc "Filter" = some "Standard" →
        ((getInt enc "V").getD 0 = 1 ∨ (getInt enc "V").getD 0 = 2 ∨
          (getInt enc "V").getD 0 = 4) →
        getInt enc "R" = some r → (r < 2 ∨ r > 4) →
        NewSecurityHandler md5 rc4 password trailer =
          .error (.other "Unsupported encryption revision")) ∧
    (∀ (md5 : List Nat → List Nat) (rc4 : List Nat → List Nat → List Nat)
        (password : List Nat) (trailer enc : List (String × Object)) (r : Int)
        (o u : List Nat) (p : Int) (ids : List Object) (idb : List Nat),
        getDictionary trailer "Encrypt" = some enc →
        getName enc "Filter" = some "Standard" →
        ((getInt enc "V").getD 0 = 1 ∨ (getInt enc "V").getD 0 = 2 ∨
          (getInt enc "V").getD 0 = 4) →
        getInt enc "R" = some r → 2 ≤ r → r ≤ 4 →
        getBytes enc "O" = some o → getBytes enc "U" = some u →
        getInt enc "P" = some p →
        getArray trailer "ID" = some ids → arrGetBytes ids 0 = some idb →
        ¬ (if r = 2 then
            algorithm4Passes rc4
              (computeEncryptionKey md5 r o (le32 p) idb
                ((getBool enc "EncryptMetadata").getD true) password
                (encryptByteLength enc ((getInt enc "V").getD 0))) u
          else
            algorithm5Passes md5 rc4
              (computeEncryptionKey md5 r o (le32 p) idb
                ((getBool enc "EncryptMetadata").getD true) password
                (encryptByteLength enc ((getInt enc "V").getD 0))) idb u) →
        NewSecurityHandler md5 rc4 password trailer = .error .password) ∧
    (∀ (md5 : List Nat → List Nat) (rc4 : List Nat → List Nat → List Nat)
        (xref : XrefMap) (trailer : List (String × Object))
        (password : List Nat) (encObj : Object) (e : SHErr),
        dictLookup trailer "Encrypt" = some encObj →
        NewSecurityHandler md5 rc4 password trailer = .error e →
        (parserLoadSecurity md5 rc4 xref trailer password).2 =
          some SHErr.password) := by
  refine ⟨?_, ?_, ?_, ?_⟩
  · intro md5 rc4 password trailer enc h1 h2 hv1 hv2 hv4
    unfold NewSecurityHandler
    rw [h1]
    dsimp only
    rw [h2]
    dsimp only
    rw [if_neg (fun hc => hc rfl), if_pos ⟨hv1, hv2, hv4⟩]
  · intro md5 rc4 password trailer enc r h1 h2 hv h3 hr
    unfold NewSecurityHandler
    rw [h1]
    dsimp only
    rw [h2]
    dsimp only
    rw [if_neg (fun hc => hc rfl)]
    have hvcond : ¬ ((getInt enc "V").getD 0 ≠ 1 ∧ (getInt enc "V").getD 0 ≠ 2 ∧
        (getInt enc "V").getD 0 ≠ 4) := by
      rcases hv with hv | hv | hv <;> simp [hv]
    rw [if_neg hvcond, h3]
    dsimp only
    rw [if_pos hr]
  · intro md5 rc4 password trailer enc r o u p ids idb h1 h2 hv h3 hr2 hr4
      ho hu hp hids hidb hval
    unfold NewSecurityHandler
    rw [h1]
    dsimp only
    rw [h2]
    dsimp only
    rw [if_neg (fun hc => hc rfl)]
    have hvcond : ¬ ((getInt enc "V").getD 0 ≠ 1 ∧ (getInt enc "V").getD 0 ≠ 2 ∧
        (getInt enc "V").getD 0 ≠ 4) := by
      rcases hv with hv | hv | hv <;> simp [hv]
    rw [if_neg hvcond, h3]
    dsimp only
    rw [if_neg (by omega : ¬ (r < 2 ∨ r > 4)), ho]
    dsimp only
    rw [hu]
    dsimp only
    rw [hp]
    dsimp only
    rw [hids]
    dsimp only
    rw [hidb]
    dsimp only
    rw [if_pos hval]
  · intro md5 rc4 xref trailer password encObj e h1 h2
    unfold parserLoadSecurity
    rw [h1]
    dsimp only
    rw [h2]

/-- A concrete Encrypt dictionary with supported version but unsupported
revision R=5. -/
def encR5 : List (String × Object) :=
  [("Filter", Object.name (strBytes "Standard")), ("V", Object.number 2),
    ("R", Object.number 5)]

/-- A concrete R=2 Encrypt dictionary whose 32-byte padding-constant RC4
image cannot equal its empty U entry, so validation fails. -/
def encR2 : List (String × Object) :=
  [("Filter", Object.name (strBytes "Standard")), ("V", Object.number 1),
    ("R", Object.number 2), ("O", Object.str []), ("U", Object.str []),
    ("P", Object.number 0)]

/-- The trailer carrying encR2 together with an ID array. -/
def trailerR2 : List (String × Object) :=
  [("Encrypt", Object.dict encR2), ("ID", Object.array [Object.str []])]

/-- Witness for C5 at concrete inputs: the V=3 dictionary gives the
Unsupported-version error, the R=5 dictionary the Unsupported-revision
error, the failing R=2 validation gives the Password error, and the Load
step turns the V=3 Unsupported error into the Password error. -/
theorem claim_C5_witness :
    NewSecurityHandler (fun _ => []) (fun _ d => d) [] trailerV3 =
        .error (.other "Unsupported encryption version") ∧
      NewSecurityHandler (fun _ => []) (fun _ d => d) []
          [("Encrypt", Object.dict encR5)] =
        .error (.other "Unsupported encryption revision") ∧
      NewSecurityHandler (fun _ => []) (fun _ d => d) [] trailerR2 =
        .error .password ∧
      (parserLoadSecurity (fun _ => []) (fun _ d => d) xrefEmpty trailerV3 []).2 =
        some SHErr.password :=
  ⟨claim_C5_error_taxonomy.1 (fun _ => []) (fun _ d => d) [] trailerV3 encV3
      rfl rfl (by decide) (by decide) (by decide),
    claim_C5_error_taxonomy.2.1 (fun _ => []) (fun _ d => d) []
      [("Encrypt", Object.dict encR5)] encR5 5
      rfl rfl (Or.inr (Or.inl (by decide))) (by decide)
      (Or.inr (by decide)),
    claim_C5_error_taxonomy.2.2.1 (fun _ => []) (fun _ d => d) [] trailerR2
      encR2 2 [] [] 0 [Object.str []] []
      rfl rfl (Or.inl (by decide)) (by decide) (by decide)
      (by decide) rfl rfl (by decide) rfl rfl
      (by decide),
    claim_C5_error_taxonomy.2.2.2 (fun _ => []) (fun _ d => d) xrefEmpty
      trailerV3 [] (Object.dict encV3)
      (.other "Unsupported encryption version") rfl
      (claim_C5_error_taxonomy.1 (fun _ => []) (fun _ d => d) [] trailerV3
        encV3 rfl rfl (by decide) (by decide) (by decide))⟩

/-- C10: for every ciphertext of at most 16 bytes (one AES block),
CryptFilterAES.Decrypt consumes the whole input as the initialization
vector and returns the empty byte string, signalling no error (the
function has no error channel); the contrapositive over all inputs gives
that only inputs longer than 16 bytes produce decrypted output.  The CBC
collaborator is arbitrary - it is never consulted on such inputs. -/
theorem claim_C10_aes_short_input
    (cbcDecrypt : List Nat → List Nat → List Nat → List Nat)
    (key data : List Nat) (h : data.length ≤ 16) :
    aesFilterDecrypt cbcDecrypt key data = [] := by
  unfold aesFilterDecrypt
  simp [h]

/-- Witness for C10 at a concrete 3-byte ciphertext, with a CBC
collaborator that would return output if it were consulted. -/
theorem claim_C10_witness :
    ([1, 2, 3] : List Nat).length ≤ 16 ∧
      aesFilterDecrypt (fun _ _ _ => [7]) [9] [1, 2, 3] = [] :=
  ⟨by decide, claim_C10_aes_short_input (fun _ _ _ => [7]) [9] [1, 2, 3] (by decide)⟩

/-- C7 (code bug): readNumber does not compute the decimal value of a
numeric literal with two or more fractional digits: the source divides the
i-th fractional digit by `10 * i` instead of `10 ^ i`.  On the claim's own
example `0.25`, both variants return 2/10 + 5/20 = 9/20 = 0.45 (the exact
value of the operation sequence; the float64 computation differs from it
by less than 2^-50), not the decimal value 0.25. -/
theorem claim_C7_readNumber_divergence :
    parserReadNumber (strBytes "0.25") = ⟨9 / 20, none, []⟩ ∧
      pdfReadNumber (strBytes "0.25") = ⟨9 / 20, none, []⟩ ∧
      (9 / 20 : Rat) ≠ 25 / 100 := by
  have hb : strBytes "0.25" = [48, 46, 50, 53] := by decide
  have hws : parserConsumeWhitespace [48, 46, 50, 53] = [48, 46, 50, 53] := by
    simp [parserConsumeWhitespace, isWhitespaceByte]
  have hws2 : pdfConsumeWhitespace [48, 46, 50, 53] = [48, 46, 50, 53] := by
    simp [pdfConsumeWhitespace, isWhitespaceByte]
  have hcore : readNumberCore [48, 46, 50, 53] = ⟨9 / 20, none, []⟩ := by
    simp [readNumberCore, numberIntLoop, numberRealLoop, isDigitByte]
    norm_num
  refine ⟨?_, ?_, by norm_num⟩
  · rw [parserReadNumber, hb, hws, hcore]
  · rw [pdfReadNumber, hb, hws2, hcore]

/-- C6: the per-object key of both crypt filters is the MD5 of
file_key ‖ (n as 3 little-endian bytes) ‖ (g as 2 little-endian bytes)
‖ (`sAlT` for the AES filter only), truncated to min(len(file_key)+5, 16)
bytes; being a pure function of (file_key, n, g, filter kind), two Init
calls with the same inputs give identical keys.  The little-endian bytes
are stated by the spec's arithmetic formula and proved against the
source's PutUint32-and-truncate construction. -/
theorem claim_C6_object_key_formula (md5 : List Nat → List Nat)
    (key : List Nat) (n g : Nat) :
    aesFilterInit md5 key n g =
      (md5 (key ++ [n % 256, n / 256 % 256, n / 65536 % 256] ++
        [g % 256, g / 256 % 256] ++ strBytes "sAlT")).take
          (min (key.length + 5) 16) ∧
    rc4FilterInit md5 key n g =
      (md5 (key ++ [n % 256, n / 256 % 256, n / 65536 % 256] ++
        [g % 256, g / 256 % 256])).take (min (key.length + 5) 16) := by
  have hle3 : ∀ m : Nat, (le32 (m : Int)).take 3 =
      [m % 256, m / 256 % 256, m / 65536 % 256] := by
    intro m
    simp only [le32]
    have hmod : ((m : Int) % 4294967296).toNat = m % 4294967296 := by
      omega
    rw [hmod]
    simp only [List.take, List.cons.injEq, and_true]
    omega
  have hle2 : ∀ m : Nat, (le32 (m : Int)).take 2 = [m % 256, m / 256 % 256] := by
    intro m
    simp only [le32]
    have hmod : ((m : Int) % 4294967296).toNat = m % 4294967296 := by
      omega
    rw [hmod]
    simp only [List.take, List.cons.injEq, and_true]
    omega
  have hmin : (if key.length + 5 > 16 then 16 else key.length + 5) =
      min (key.length + 5) 16 := by
    split <;> omega
  constructor
  · simp only [aesFilterInit, hle3, hle2, hmin, List.append_assoc]
  · simp only [rc4FilterInit, hle3, hle2, hmin, List.append_assoc]

/-- C2: ReadObject (Pdf) and GetObject (Parser) are total functions into an
indirect object - no parse error reaches the caller (the value parse error
is discarded in both sources) - and for an object number absent from the
xref map or present with an entry that is not in use, the result carries
the null object value and no stream bytes. -/
theorem claim_C2_absent_or_free_gives_null
    (decode : String → List Nat → Option (List (String × Object)) → Option (List Nat))
    (sh : SHFilters) (xref : XrefMap) (data : List Nat)
    (number : Int)
    (h : xrefLookup xref number = none ∨
      ∃ e, xrefLookup xref number = some e ∧ e.xtype ≠ XrefTypeIndirectObject) :
    (parserGetObject decode sh xref data number).value = NullObj ∧
      (parserGetObject decode sh xref data number).stream = none ∧
      (pdfReadIndirectObject decode xref data number).value = NullObj ∧
      (pdfReadIndirectObject decode xref data number).stream = none := by
  rcases h with h | ⟨e, he, ht⟩
  · unfold parserGetObject pdfReadIndirectObject
    rw [h]
    and_intros <;> first | rfl | trivial
  · unfold parserGetObject pdfReadIndirectObject
    rw [he]
    simp only [if_neg ht]
    and_intros <;> first | rfl | trivial

/-- Witness for C2: object number 1 in an xref holding only a free entry
for it, and object number 2 absent altogether, both yield the null value
and no stream (the free-entry case shown; the hypothesis is discharged with
the free entry). -/
theorem claim_C2_witness :
    (xrefLookup (xrefInsert xrefEmpty 1 (NewXrefEntry 0 0 0)) 1 =
        some (NewXrefEntry 0 0 0) ∧
        (NewXrefEntry 0 0 0).xtype ≠ XrefTypeIndirectObject) ∧
      (parserGetObject (fun _ b _ => some b) shDefault
          (xrefInsert xrefEmpty 1 (NewXrefEntry 0 0 0)) [] 1).value = NullObj ∧
      (parserGetObject (fun _ b _ => some b) shDefault
          (xrefInsert xrefEmpty 1 (NewXrefEntry 0 0 0)) [] 1).stream = none ∧
      (pdfReadIndirectObject (fun _ b _ => some b)
          (xrefInsert xrefEmpty 1 (NewXrefEntry 0 0 0)) [] 1).value = NullObj ∧
      (pdfReadIndirectObject (fun _ b _ => some b)
          (xrefInsert xrefEmpty 1 (NewXrefEntry 0 0 0)) [] 1).stream = none :=
  ⟨⟨rfl, by decide⟩,
    claim_C2_absent_or_free_gives_null (fun _ b _ => some b) shDefault
      (xrefInsert xrefEmpty 1 (NewXrefEntry 0 0 0)) [] 1
      (Or.inr ⟨NewXrefEntry 0 0 0, rfl, by decide⟩)⟩

/-- C9: both xref chain loaders guard every offset with a visited set that
is extended before the section is processed, so a call on an
already-visited offset returns the state - visited set, xref map and
trailer - unchanged.  Termination for every input, including `Prev` chains
that revisit an offset or point at themselves, is exactly what lets Lean
accept `pdfLoadXref` and `parserLoadXref` as total functions: each
recursive step moves to an offset of the file not yet visited, so the set
of unvisited file offsets strictly shrinks. -/
theorem claim_C9_visited_offset_noop (file : List (Int × XrefSection))
    (offset : Int) (stp : PdfLoadState) (stq : ParserLoadState)
    (hp : offset ∈ stp.xrefOffsets) (hq : offset ∈ stq.visited) :
    pdfLoadXref file offset stp = stp ∧ parserLoadXref file offset stq = stq := by
  constructor
  · rw [pdfLoadXref]
    simp [hp]
  · rw [parserLoadXref]
    simp [hq]

/-- Witness for C9: a state that has already visited offset 5 is returned
unchanged by both loaders, even on a file whose section at 5 points its
`Prev` at 5 itself. -/
theorem claim_C9_witness :
    (5 : Int) ∈ ({5} : Finset Int) ∧
      pdfLoadXref [(5, ⟨[], [], some 5⟩)] 5 ⟨{5}, xrefEmpty, []⟩ =
        ⟨{5}, xrefEmpty, []⟩ ∧
      parserLoadXref [(5, ⟨[], [], some 5⟩)] 5 ⟨{5}, xrefEmpty, []⟩ =
        ⟨{5}, xrefEmpty, []⟩ :=
  ⟨by decide,
    (claim_C9_visited_offset_noop [(5, ⟨[], [], some 5⟩)] 5 ⟨{5}, xrefEmpty, []⟩
        ⟨{5}, xrefEmpty, []⟩ (by decide) (by decide)).1,
    (claim_C9_visited_offset_noop [(5, ⟨[], [], some 5⟩)] 5 ⟨{5}, xrefEmpty, []⟩
        ⟨{5}, xrefEmpty, []⟩ (by decide) (by decide)).2⟩

end PdfParser
